import Mathlib

/-!
# oclsa: static instruction-mix statistics per basic block

A shallow embedding of `Pass.cc`: the four opcode tables, the address-space
constants, the per-block record `BasicBlockStatsData`, `checkAddrSpace`,
`evalInstruction` and `oclsa::runOnFunction`.

Modelling choices, each tied to the source:

* The counters are C++ `unsigned` fields.  They are natural numbers here and
  every `++` is `(n + 1) % 2^32` (`inc`), the wrap-around of a 32-bit
  `unsigned`.
* An `llvm::Instruction` is seen by the pass through exactly three
  observations: `getOpcodeName()`, which `dyn_cast` succeeds
  (`LoadInst`, `StoreInst`, neither), and `getPointerAddressSpace()` of a
  load or store.  `Instruction` records these three.
* Pointers (`const llvm::BasicBlock*`, `const llvm::Loop*`) are opaque
  handles; `nullptr` is `none`.
* The global `functionStats` vector is threaded explicitly through
  `runOnFunction`; `debug_err_BasicBlockStatsData` only prints and has no
  effect on the state.
-/

namespace Oclsa

/-! ## Tables and constants (Pass.cc lines 18-38) -/

/-- Binary arithmetic opcode names, `BIN_OPS`. -/
def BIN_OPS : List String :=
  ["add", "fadd", "sub", "fsub", "mul", "fmul", "udiv", "sdiv", "fdiv", "urem",
   "srem", "frem"]

/-- Bitwise binary opcode names, `BIT_BIN_OPS`. -/
def BIT_BIN_OPS : List String :=
  ["shl", "lshr", "ashr", "and", "or", "xor"]

/-- Vector opcode names, `VEC_OPS`. -/
def VEC_OPS : List String :=
  ["extractelement", "insertelement", "shufflevector"]

/-- Aggregate opcode names, `AGG_OPS`. -/
def AGG_OPS : List String :=
  ["extractvalue", "insertvalue"]

/-- Address space of `__private` memory. -/
def privateAddressSpace : Nat := 0

/-- Address space of `__local` memory. -/
def localAddressSpace : Nat := 1

/-- Address space of `__global` memory. -/
def globalAddressSpace : Nat := 2

/-! ## Machine arithmetic -/

/-- Largest value of a 32-bit C++ `unsigned`. -/
def UINT_MAX : Nat := 4294967295

/-- The C++ post-increment `x++` on an `unsigned` field: add one modulo `2^32`. -/
def inc (n : Nat) : Nat := (n + 1) % 4294967296

/-! ## Data model (Pass.cc lines 40-64) -/

/-- Which `llvm::dyn_cast` succeeds on an instruction. -/
inductive InstKind where
  | load
  | store
  | other
  deriving DecidableEq

/-- What the pass observes of an `llvm::Instruction`. -/
structure Instruction where
  /-- Result of `getOpcodeName()`. -/
  opcodeName : String
  /-- Whether it is a `LoadInst`, a `StoreInst`, or neither. -/
  kind : InstKind
  /-- Result of `getPointerAddressSpace()` (consulted for loads and stores only). -/
  pointerAddressSpace : Nat
  deriving DecidableEq

/-- The record `BasicBlockStatsData`. -/
structure BasicBlockStatsData where
  OwnerLoop : Option Nat
  NumBinOps : Nat
  NumBitBinOps : Nat
  NumVecOps : Nat
  NumAggOps : Nat
  NumLoadOps : Nat
  NumStoreOps : Nat
  NumCallOps : Nat
  NumOtherOps : Nat
  NumGlobalMemAcc : Nat
  NumLocalMemAcc : Nat
  NumPrivateMemAcc : Nat
  deriving DecidableEq

/-- The default constructor `BasicBlockStatsData()`: null loop, all counters zero. -/
def BasicBlockStatsData.init : BasicBlockStatsData :=
  { OwnerLoop := none,
    NumBinOps := 0, NumBitBinOps := 0, NumVecOps := 0, NumAggOps := 0,
    NumLoadOps := 0, NumStoreOps := 0, NumCallOps := 0, NumOtherOps := 0,
    NumGlobalMemAcc := 0, NumLocalMemAcc := 0, NumPrivateMemAcc := 0 }

/-- A basic block: its address (identity) and its instructions in program order. -/
structure BasicBlock where
  addr : Nat
  insts : List Instruction
  deriving DecidableEq

/-- The pair type `BasicBlockStats`: block pointer and record. -/
abbrev BasicBlockStats := Nat × BasicBlockStatsData

/-- The vector type `BasicBlocks`. -/
abbrev BasicBlocks := List BasicBlockStats

/-! ## Operations (Pass.cc lines 89-150) -/

/-- The function `checkAddrSpace`: attribute one access to an address space. -/
def checkAddrSpace (addrSpaceID : Nat) (stats : BasicBlockStatsData) :
    BasicBlockStatsData :=
  if addrSpaceID = privateAddressSpace then
    { stats with NumPrivateMemAcc := inc stats.NumPrivateMemAcc }
  else if addrSpaceID = localAddressSpace then
    { stats with NumLocalMemAcc := inc stats.NumLocalMemAcc }
  else if addrSpaceID = globalAddressSpace then
    { stats with NumGlobalMemAcc := inc stats.NumGlobalMemAcc }
  else
    stats

/-- The function `evalInstruction`: classify one instruction into the record. -/
def evalInstruction (instr : Instruction) (stats : BasicBlockStatsData) :
    BasicBlockStatsData :=
  let opName := instr.opcodeName
  if opName ∈ BIN_OPS then
    { stats with NumBinOps := inc stats.NumBinOps }
  else if opName ∈ BIT_BIN_OPS then
    { stats with NumBitBinOps := inc stats.NumBitBinOps }
  else if opName ∈ VEC_OPS then
    { stats with NumVecOps := inc stats.NumVecOps }
  else if opName ∈ AGG_OPS then
    { stats with NumAggOps := inc stats.NumAggOps }
  else if opName = "call" then
    { stats with NumCallOps := inc stats.NumCallOps }
  else if instr.kind = InstKind.load then
    checkAddrSpace instr.pointerAddressSpace
      { stats with NumLoadOps := inc stats.NumLoadOps }
  else if instr.kind = InstKind.store then
    checkAddrSpace instr.pointerAddressSpace
      { stats with NumStoreOps := inc stats.NumStoreOps }
  else
    { stats with NumOtherOps := inc stats.NumOtherOps }

/-- The inner loop of `runOnFunction` (lines 96-98): every instruction of the
block, in order, through `evalInstruction`. -/
def evalBlock (insts : List Instruction) (bbsd : BasicBlockStatsData) :
    BasicBlockStatsData :=
  insts.foldl (fun stats inst => evalInstruction inst stats) bbsd

/-- The body of the outer loop of `runOnFunction` up to the append
(lines 93-98): fresh record, owner loop from the loop analysis, instruction walk. -/
def blockStats (LI : Nat → Option Nat) (bb : BasicBlock) : BasicBlockStatsData :=
  evalBlock bb.insts { BasicBlockStatsData.init with OwnerLoop := LI bb.addr }

/-- The method `oclsa::runOnFunction`: for each block in stored order, build its
record and append the pair to `functionStats`; the returned flag is `false`. -/
def runOnFunction (LI : Nat → Option Nat) (CurrFunc : List BasicBlock)
    (functionStats : BasicBlocks) : Bool × BasicBlocks :=
  (false,
   CurrFunc.foldl (fun fs bb => fs ++ [(bb.addr, blockStats LI bb)]) functionStats)

/-! ## Naming the eight category counters -/

/-- The eight instruction categories, one per category counter. -/
inductive OpCategory where
  | bin
  | bitBin
  | vec
  | agg
  | load
  | store
  | call
  | other
  deriving DecidableEq

/-- The category counter of a record that belongs to a category. -/
def BasicBlockStatsData.counter (s : BasicBlockStatsData) : OpCategory → Nat
  | .bin => s.NumBinOps
  | .bitBin => s.NumBitBinOps
  | .vec => s.NumVecOps
  | .agg => s.NumAggOps
  | .load => s.NumLoadOps
  | .store => s.NumStoreOps
  | .call => s.NumCallOps
  | .other => s.NumOtherOps

/-- The branch of the if-chain of `evalInstruction` that an instruction takes. -/
def classify (instr : Instruction) : OpCategory :=
  if instr.opcodeName ∈ BIN_OPS then .bin
  else if instr.opcodeName ∈ BIT_BIN_OPS then .bitBin
  else if instr.opcodeName ∈ VEC_OPS then .vec
  else if instr.opcodeName ∈ AGG_OPS then .agg
  else if instr.opcodeName = "call" then .call
  else if instr.kind = InstKind.load then .load
  else if instr.kind = InstKind.store then .store
  else .other

/-- Whether an instruction takes the load or the store branch of
`evalInstruction`, the two branches that call `checkAddrSpace`. -/
def isMemOp (instr : Instruction) : Bool :=
  decide (classify instr = .load ∨ classify instr = .store)

/-- Whether an instruction takes the load or store branch with pointer address
space `a`. -/
def accesses (a : Nat) (instr : Instruction) : Bool :=
  isMemOp instr && decide (instr.pointerAddressSpace = a)

/-! ## The four table tests in an arbitrary order -/

/-- The four name tables tested by `evalInstruction`. -/
inductive NameTable where
  | binOps
  | bitBinOps
  | vecOps
  | aggOps
  deriving DecidableEq

/-- The opcode names held by a table. -/
def NameTable.names : NameTable → List String
  | .binOps => BIN_OPS
  | .bitBinOps => BIT_BIN_OPS
  | .vecOps => VEC_OPS
  | .aggOps => AGG_OPS

/-- The branch `evalInstruction` takes when the opcode name is found in a table:
the increment of that table's counter. -/
def NameTable.bump : NameTable → BasicBlockStatsData → BasicBlockStatsData
  | .binOps, stats => { stats with NumBinOps := inc stats.NumBinOps }
  | .bitBinOps, stats => { stats with NumBitBinOps := inc stats.NumBitBinOps }
  | .vecOps, stats => { stats with NumVecOps := inc stats.NumVecOps }
  | .aggOps, stats => { stats with NumAggOps := inc stats.NumAggOps }

/-- The tail of the if-chain of `evalInstruction`, after the four table tests
(Pass.cc lines 137-149): `call`, load, store, other. -/
def evalAfterTables (instr : Instruction) (stats : BasicBlockStatsData) :
    BasicBlockStatsData :=
  if instr.opcodeName = "call" then
    { stats with NumCallOps := inc stats.NumCallOps }
  else if instr.kind = InstKind.load then
    checkAddrSpace instr.pointerAddressSpace
      { stats with NumLoadOps := inc stats.NumLoadOps }
  else if instr.kind = InstKind.store then
    checkAddrSpace instr.pointerAddressSpace
      { stats with NumStoreOps := inc stats.NumStoreOps }
  else
    { stats with NumOtherOps := inc stats.NumOtherOps }

/-- The reordered classifier: `evalInstruction` with its table membership tests
made in the order given by `order` (first match wins), followed by the unchanged
tail of the chain.  With `order = [binOps, bitBinOps, vecOps, aggOps]` this is the
chain of the source. -/
def evalInstructionReordered (order : List NameTable) (instr : Instruction)
    (stats : BasicBlockStatsData) : BasicBlockStatsData :=
  match order with
  | [] => evalAfterTables instr stats
  | t :: rest =>
    if instr.opcodeName ∈ t.names then t.bump stats
    else evalInstructionReordered rest instr stats


/-! ## The tables are disjoint and which branch a name selects -/

theorem BIT_BIN_OPS_not_BIN_OPS : ∀ x ∈ BIT_BIN_OPS, x ∉ BIN_OPS := by decide

theorem VEC_OPS_not_BIN_OPS : ∀ x ∈ VEC_OPS, x ∉ BIN_OPS := by decide

theorem VEC_OPS_not_BIT_BIN_OPS : ∀ x ∈ VEC_OPS, x ∉ BIT_BIN_OPS := by decide

theorem AGG_OPS_not_BIN_OPS : ∀ x ∈ AGG_OPS, x ∉ BIN_OPS := by decide

theorem AGG_OPS_not_BIT_BIN_OPS : ∀ x ∈ AGG_OPS, x ∉ BIT_BIN_OPS := by decide

theorem AGG_OPS_not_VEC_OPS : ∀ x ∈ AGG_OPS, x ∉ VEC_OPS := by decide

theorem call_not_in_tables :
    "call" ∉ BIN_OPS ∧ "call" ∉ BIT_BIN_OPS ∧ "call" ∉ VEC_OPS ∧ "call" ∉ AGG_OPS := by
  decide

theorem classify_bin_iff (i : Instruction) :
    classify i = .bin ↔ i.opcodeName ∈ BIN_OPS := by
  constructor
  · intro h
    unfold classify at h
    split_ifs at h
    assumption
  · intro h
    unfold classify
    rw [if_pos h]

theorem classify_bitBin_iff (i : Instruction) :
    classify i = .bitBin ↔ i.opcodeName ∈ BIT_BIN_OPS := by
  constructor
  · intro h
    unfold classify at h
    split_ifs at h
    assumption
  · intro h
    unfold classify
    rw [if_neg (BIT_BIN_OPS_not_BIN_OPS _ h), if_pos h]

theorem classify_vec_iff (i : Instruction) :
    classify i = .vec ↔ i.opcodeName ∈ VEC_OPS := by
  constructor
  · intro h
    unfold classify at h
    split_ifs at h
    assumption
  · intro h
    unfold classify
    rw [if_neg (VEC_OPS_not_BIN_OPS _ h), if_neg (VEC_OPS_not_BIT_BIN_OPS _ h), if_pos h]

theorem classify_agg_iff (i : Instruction) :
    classify i = .agg ↔ i.opcodeName ∈ AGG_OPS := by
  constructor
  · intro h
    unfold classify at h
    split_ifs at h
    assumption
  · intro h
    unfold classify
    rw [if_neg (AGG_OPS_not_BIN_OPS _ h), if_neg (AGG_OPS_not_BIT_BIN_OPS _ h),
      if_neg (AGG_OPS_not_VEC_OPS _ h), if_pos h]

theorem classify_call_iff (i : Instruction) :
    classify i = .call ↔ i.opcodeName = "call" := by
  constructor
  · intro h
    unfold classify at h
    split_ifs at h
    assumption
  · intro h
    unfold classify
    rw [h, if_neg call_not_in_tables.1, if_neg call_not_in_tables.2.1,
      if_neg call_not_in_tables.2.2.1, if_neg call_not_in_tables.2.2.2, if_pos rfl]

theorem classify_load_of (i : Instruction) (h1 : i.opcodeName ∉ BIN_OPS)
    (h2 : i.opcodeName ∉ BIT_BIN_OPS) (h3 : i.opcodeName ∉ VEC_OPS)
    (h4 : i.opcodeName ∉ AGG_OPS) (h5 : i.opcodeName ≠ "call")
    (hk : i.kind = InstKind.load) : classify i = .load := by
  unfold classify
  rw [if_neg h1, if_neg h2, if_neg h3, if_neg h4, if_neg h5, if_pos hk]

theorem classify_store_of (i : Instruction) (h1 : i.opcodeName ∉ BIN_OPS)
    (h2 : i.opcodeName ∉ BIT_BIN_OPS) (h3 : i.opcodeName ∉ VEC_OPS)
    (h4 : i.opcodeName ∉ AGG_OPS) (h5 : i.opcodeName ≠ "call")
    (hk : i.kind = InstKind.store) : classify i = .store := by
  have hl : ¬ i.kind = InstKind.load := by
    rw [hk]
    decide
  unfold classify
  rw [if_neg h1, if_neg h2, if_neg h3, if_neg h4, if_neg h5, if_neg hl, if_pos hk]

/-! ## Basic facts about `inc` -/

theorem inc_of_lt {n : Nat} (h : n < UINT_MAX) : inc n = n + 1 := by
  unfold UINT_MAX at h
  unfold inc
  omega

theorem inc_ne_self (n : Nat) : inc n ≠ n := by
  unfold inc
  omega

theorem inc_UINT_MAX : inc UINT_MAX = 0 := by decide

theorem inc_le (n : Nat) : inc n ≤ n + 1 := by
  unfold inc
  omega

/-! ## Frame facts for `checkAddrSpace` -/

theorem checkAddrSpace_counter (a : Nat) (s : BasicBlockStatsData) (c : OpCategory) :
    (checkAddrSpace a s).counter c = s.counter c := by
  unfold checkAddrSpace
  split_ifs <;> cases c <;> rfl

theorem checkAddrSpace_OwnerLoop (a : Nat) (s : BasicBlockStatsData) :
    (checkAddrSpace a s).OwnerLoop = s.OwnerLoop := by
  unfold checkAddrSpace
  split_ifs <;> rfl

/-! ## The category counters under `evalInstruction` -/

theorem evalInstruction_counter (i : Instruction) (s : BasicBlockStatsData)
    (c : OpCategory) :
    (evalInstruction i s).counter c =
      if c = classify i then inc (s.counter c) else s.counter c := by
  unfold evalInstruction classify
  dsimp only
  split_ifs <;> cases c <;>
    first
      | contradiction
      | rfl
      | (rw [checkAddrSpace_counter]; rfl)

theorem evalInstruction_eq (i : Instruction) (s : BasicBlockStatsData) :
    evalInstruction i s =
      match classify i with
      | .bin => { s with NumBinOps := inc s.NumBinOps }
      | .bitBin => { s with NumBitBinOps := inc s.NumBitBinOps }
      | .vec => { s with NumVecOps := inc s.NumVecOps }
      | .agg => { s with NumAggOps := inc s.NumAggOps }
      | .call => { s with NumCallOps := inc s.NumCallOps }
      | .load => checkAddrSpace i.pointerAddressSpace
          { s with NumLoadOps := inc s.NumLoadOps }
      | .store => checkAddrSpace i.pointerAddressSpace
          { s with NumStoreOps := inc s.NumStoreOps }
      | .other => { s with NumOtherOps := inc s.NumOtherOps } := by
  unfold evalInstruction classify
  dsimp only
  split_ifs <;> rfl

theorem evalInstruction_OwnerLoop (i : Instruction) (s : BasicBlockStatsData) :
    (evalInstruction i s).OwnerLoop = s.OwnerLoop := by
  rw [evalInstruction_eq]
  cases classify i <;> first | rfl | exact checkAddrSpace_OwnerLoop _ _

theorem evalInstruction_NumPrivateMemAcc (i : Instruction) (s : BasicBlockStatsData) :
    (evalInstruction i s).NumPrivateMemAcc =
      if accesses 0 i then inc s.NumPrivateMemAcc else s.NumPrivateMemAcc := by
  rw [evalInstruction_eq]
  cases h : classify i <;>
    simp [accesses, isMemOp, h, checkAddrSpace, privateAddressSpace, localAddressSpace,
      globalAddressSpace] <;>
    split_ifs <;> simp_all

theorem evalInstruction_NumLocalMemAcc (i : Instruction) (s : BasicBlockStatsData) :
    (evalInstruction i s).NumLocalMemAcc =
      if accesses 1 i then inc s.NumLocalMemAcc else s.NumLocalMemAcc := by
  rw [evalInstruction_eq]
  cases h : classify i <;>
    simp [accesses, isMemOp, h, checkAddrSpace, privateAddressSpace, localAddressSpace,
      globalAddressSpace] <;>
    split_ifs <;> simp_all

theorem evalInstruction_NumGlobalMemAcc (i : Instruction) (s : BasicBlockStatsData) :
    (evalInstruction i s).NumGlobalMemAcc =
      if accesses 2 i then inc s.NumGlobalMemAcc else s.NumGlobalMemAcc := by
  rw [evalInstruction_eq]
  cases h : classify i <;>
    simp [accesses, isMemOp, h, checkAddrSpace, privateAddressSpace, localAddressSpace,
      globalAddressSpace] <;>
    split_ifs <;> simp_all

theorem evalInstruction_of_load (i : Instruction) (s : BasicBlockStatsData)
    (hc : classify i = .load) :
    evalInstruction i s =
      checkAddrSpace i.pointerAddressSpace { s with NumLoadOps := inc s.NumLoadOps } := by
  rw [evalInstruction_eq, hc]

theorem evalInstruction_of_store (i : Instruction) (s : BasicBlockStatsData)
    (hc : classify i = .store) :
    evalInstruction i s =
      checkAddrSpace i.pointerAddressSpace { s with NumStoreOps := inc s.NumStoreOps } := by
  rw [evalInstruction_eq, hc]

theorem checkAddrSpace_private (s : BasicBlockStatsData) :
    checkAddrSpace 0 s = { s with NumPrivateMemAcc := inc s.NumPrivateMemAcc } := rfl

theorem checkAddrSpace_local (s : BasicBlockStatsData) :
    checkAddrSpace 1 s = { s with NumLocalMemAcc := inc s.NumLocalMemAcc } := rfl

theorem checkAddrSpace_global (s : BasicBlockStatsData) :
    checkAddrSpace 2 s = { s with NumGlobalMemAcc := inc s.NumGlobalMemAcc } := rfl

theorem checkAddrSpace_unknown (a : Nat) (s : BasicBlockStatsData) (h0 : a ≠ 0)
    (h1 : a ≠ 1) (h2 : a ≠ 2) : checkAddrSpace a s = s := by
  unfold checkAddrSpace privateAddressSpace localAddressSpace globalAddressSpace
  rw [if_neg h0, if_neg h1, if_neg h2]

/-! ## Repeated increments -/

theorem inc_iterate (n x : Nat) (hx : x < 4294967296) :
    inc^[n] x = (x + n) % 4294967296 := by
  induction n with
  | zero => simp [Nat.mod_eq_of_lt hx]
  | succ k ih =>
    rw [Function.iterate_succ_apply', ih]
    unfold inc
    omega

theorem inc_iterate_zero_of_lt {n : Nat} (hn : n < 4294967296) : inc^[n] 0 = n := by
  rw [inc_iterate n 0 (by decide)]
  omega

/-! ## The walk over a block -/

theorem evalBlock_nil (s : BasicBlockStatsData) : evalBlock [] s = s := rfl

theorem evalBlock_cons (i : Instruction) (l : List Instruction)
    (s : BasicBlockStatsData) :
    evalBlock (i :: l) s = evalBlock l (evalInstruction i s) := rfl

theorem evalBlock_append (l1 l2 : List Instruction) (s : BasicBlockStatsData) :
    evalBlock (l1 ++ l2) s = evalBlock l2 (evalBlock l1 s) := by
  unfold evalBlock
  rw [List.foldl_append]

theorem evalBlock_OwnerLoop (l : List Instruction) (s : BasicBlockStatsData) :
    (evalBlock l s).OwnerLoop = s.OwnerLoop := by
  induction l generalizing s with
  | nil => rfl
  | cons i l ih => rw [evalBlock_cons, ih, evalInstruction_OwnerLoop]

theorem evalBlock_counter (l : List Instruction) (s : BasicBlockStatsData)
    (c : OpCategory) :
    (evalBlock l s).counter c =
      inc^[l.countP (fun i => decide (classify i = c))] (s.counter c) := by
  induction l generalizing s with
  | nil => rfl
  | cons i l ih =>
    rw [evalBlock_cons, ih, evalInstruction_counter, List.countP_cons]
    by_cases h : c = classify i
    · simp [h, Function.iterate_succ_apply]
    · have h2 : ¬ classify i = c := fun e => h e.symm
      simp [h, h2]

theorem evalBlock_NumPrivateMemAcc (l : List Instruction) (s : BasicBlockStatsData) :
    (evalBlock l s).NumPrivateMemAcc =
      inc^[l.countP (accesses 0)] s.NumPrivateMemAcc := by
  induction l generalizing s with
  | nil => rfl
  | cons i l ih =>
    rw [evalBlock_cons, ih, evalInstruction_NumPrivateMemAcc, List.countP_cons]
    by_cases h : accesses 0 i = true <;> simp [h, Function.iterate_succ_apply]

theorem evalBlock_NumLocalMemAcc (l : List Instruction) (s : BasicBlockStatsData) :
    (evalBlock l s).NumLocalMemAcc =
      inc^[l.countP (accesses 1)] s.NumLocalMemAcc := by
  induction l generalizing s with
  | nil => rfl
  | cons i l ih =>
    rw [evalBlock_cons, ih, evalInstruction_NumLocalMemAcc, List.countP_cons]
    by_cases h : accesses 1 i = true <;> simp [h, Function.iterate_succ_apply]

theorem evalBlock_NumGlobalMemAcc (l : List Instruction) (s : BasicBlockStatsData) :
    (evalBlock l s).NumGlobalMemAcc =
      inc^[l.countP (accesses 2)] s.NumGlobalMemAcc := by
  induction l generalizing s with
  | nil => rfl
  | cons i l ih =>
    rw [evalBlock_cons, ih, evalInstruction_NumGlobalMemAcc, List.countP_cons]
    by_cases h : accesses 2 i = true <;> simp [h, Function.iterate_succ_apply]

/-! ## The record of a block, counter by counter -/

theorem blockStats_counter (LI : Nat → Option Nat) (bb : BasicBlock) (c : OpCategory) :
    (blockStats LI bb).counter c =
      inc^[bb.insts.countP (fun i => decide (classify i = c))] 0 := by
  unfold blockStats
  rw [evalBlock_counter]
  cases c <;> rfl

theorem blockStats_NumPrivateMemAcc (LI : Nat → Option Nat) (bb : BasicBlock) :
    (blockStats LI bb).NumPrivateMemAcc = inc^[bb.insts.countP (accesses 0)] 0 := by
  unfold blockStats
  rw [evalBlock_NumPrivateMemAcc]
  rfl

theorem blockStats_NumLocalMemAcc (LI : Nat → Option Nat) (bb : BasicBlock) :
    (blockStats LI bb).NumLocalMemAcc = inc^[bb.insts.countP (accesses 1)] 0 := by
  unfold blockStats
  rw [evalBlock_NumLocalMemAcc]
  rfl

theorem blockStats_NumGlobalMemAcc (LI : Nat → Option Nat) (bb : BasicBlock) :
    (blockStats LI bb).NumGlobalMemAcc = inc^[bb.insts.countP (accesses 2)] 0 := by
  unfold blockStats
  rw [evalBlock_NumGlobalMemAcc]
  rfl

theorem blockStats_counter_of_lt (LI : Nat → Option Nat) (bb : BasicBlock)
    (h : bb.insts.length < 4294967296) (c : OpCategory) :
    (blockStats LI bb).counter c =
      bb.insts.countP (fun i => decide (classify i = c)) := by
  rw [blockStats_counter]
  exact inc_iterate_zero_of_lt (lt_of_le_of_lt (List.countP_le_length _) h)

theorem blockStats_NumBinOps (LI : Nat → Option Nat) (bb : BasicBlock) :
    (blockStats LI bb).NumBinOps =
      inc^[bb.insts.countP (fun i => decide (classify i = .bin))] 0 :=
  blockStats_counter LI bb .bin

theorem blockStats_NumBitBinOps (LI : Nat → Option Nat) (bb : BasicBlock) :
    (blockStats LI bb).NumBitBinOps =
      inc^[bb.insts.countP (fun i => decide (classify i = .bitBin))] 0 :=
  blockStats_counter LI bb .bitBin

theorem blockStats_NumVecOps (LI : Nat → Option Nat) (bb : BasicBlock) :
    (blockStats LI bb).NumVecOps =
      inc^[bb.insts.countP (fun i => decide (classify i = .vec))] 0 :=
  blockStats_counter LI bb .vec

theorem blockStats_NumAggOps (LI : Nat → Option Nat) (bb : BasicBlock) :
    (blockStats LI bb).NumAggOps =
      inc^[bb.insts.countP (fun i => decide (classify i = .agg))] 0 :=
  blockStats_counter LI bb .agg

theorem blockStats_NumLoadOps (LI : Nat → Option Nat) (bb : BasicBlock) :
    (blockStats LI bb).NumLoadOps =
      inc^[bb.insts.countP (fun i => decide (classify i = .load))] 0 :=
  blockStats_counter LI bb .load

theorem blockStats_NumStoreOps (LI : Nat → Option Nat) (bb : BasicBlock) :
    (blockStats LI bb).NumStoreOps =
      inc^[bb.insts.countP (fun i => decide (classify i = .store))] 0 :=
  blockStats_counter LI bb .store

theorem blockStats_NumCallOps (LI : Nat → Option Nat) (bb : BasicBlock) :
    (blockStats LI bb).NumCallOps =
      inc^[bb.insts.countP (fun i => decide (classify i = .call))] 0 :=
  blockStats_counter LI bb .call

theorem blockStats_NumOtherOps (LI : Nat → Option Nat) (bb : BasicBlock) :
    (blockStats LI bb).NumOtherOps =
      inc^[bb.insts.countP (fun i => decide (classify i = .other))] 0 :=
  blockStats_counter LI bb .other

/-- A block that repeats one instruction `n` times: the eight category counters
sum to `n` modulo `2^32`. -/
theorem blockStats_replicate_categorySum (LI : Nat → Option Nat) (a n : Nat)
    (i : Instruction) :
    (blockStats LI ⟨a, List.replicate n i⟩).NumBinOps +
      (blockStats LI ⟨a, List.replicate n i⟩).NumBitBinOps +
      (blockStats LI ⟨a, List.replicate n i⟩).NumVecOps +
      (blockStats LI ⟨a, List.replicate n i⟩).NumAggOps +
      (blockStats LI ⟨a, List.replicate n i⟩).NumLoadOps +
      (blockStats LI ⟨a, List.replicate n i⟩).NumStoreOps +
      (blockStats LI ⟨a, List.replicate n i⟩).NumCallOps +
      (blockStats LI ⟨a, List.replicate n i⟩).NumOtherOps = n % 4294967296 := by
  rw [blockStats_NumBinOps, blockStats_NumBitBinOps, blockStats_NumVecOps,
    blockStats_NumAggOps, blockStats_NumLoadOps, blockStats_NumStoreOps,
    blockStats_NumCallOps, blockStats_NumOtherOps]
  simp only [List.countP_replicate]
  have hn : inc^[n] 0 = n % 4294967296 := by
    rw [inc_iterate n 0 (by decide), Nat.zero_add]
  cases h : classify i <;> simp [hn]

/-- A block made of one load from address space 1 followed by `n` loads from
address space 0: its load, store and address-space counters. -/
theorem blockStats_loads (LI : Nat → Option Nat) (a n : Nat) :
    (blockStats LI ⟨a, ⟨"load", .load, 1⟩ ::
        List.replicate n ⟨"load", .load, 0⟩⟩).NumLoadOps = (n + 1) % 4294967296 ∧
      (blockStats LI ⟨a, ⟨"load", .load, 1⟩ ::
        List.replicate n ⟨"load", .load, 0⟩⟩).NumStoreOps = 0 ∧
      (blockStats LI ⟨a, ⟨"load", .load, 1⟩ ::
        List.replicate n ⟨"load", .load, 0⟩⟩).NumGlobalMemAcc = 0 ∧
      (blockStats LI ⟨a, ⟨"load", .load, 1⟩ ::
        List.replicate n ⟨"load", .load, 0⟩⟩).NumLocalMemAcc = 1 ∧
      (blockStats LI ⟨a, ⟨"load", .load, 1⟩ ::
        List.replicate n ⟨"load", .load, 0⟩⟩).NumPrivateMemAcc = n % 4294967296 := by
  have c0 : classify ⟨"load", .load, 0⟩ = .load := by decide
  have c1 : classify ⟨"load", .load, 1⟩ = .load := by decide
  have a00 : accesses 0 ⟨"load", .load, 0⟩ = true := by decide
  have a01 : accesses 0 ⟨"load", .load, 1⟩ = false := by decide
  have a10 : accesses 1 ⟨"load", .load, 0⟩ = false := by decide
  have a11 : accesses 1 ⟨"load", .load, 1⟩ = true := by decide
  have a20 : accesses 2 ⟨"load", .load, 0⟩ = false := by decide
  have a21 : accesses 2 ⟨"load", .load, 1⟩ = false := by decide
  rw [blockStats_NumLoadOps, blockStats_NumStoreOps, blockStats_NumGlobalMemAcc,
    blockStats_NumLocalMemAcc, blockStats_NumPrivateMemAcc]
  simp only [List.countP_cons, List.countP_replicate, c0, c1, a00, a01, a10, a11, a20,
    a21]
  refine ⟨?_, ?_, ?_, ?_, ?_⟩
  · simp [inc_iterate _ 0 (by decide)]
  · simp
  · simp
  · simp
    decide
  · simp [inc_iterate _ 0 (by decide)]

/-! ## The function driver -/

theorem foldl_append_singleton {α β : Type} (f : α → β) (l : List α) (acc : List β) :
    l.foldl (fun fs x => fs ++ [f x]) acc = acc ++ l.map f := by
  induction l generalizing acc with
  | nil => simp
  | cons x l ih => simp [ih]

theorem runOnFunction_eq (LI : Nat → Option Nat) (CurrFunc : List BasicBlock)
    (functionStats : BasicBlocks) :
    runOnFunction LI CurrFunc functionStats =
      (false, functionStats ++ CurrFunc.map (fun bb => (bb.addr, blockStats LI bb))) := by
  unfold runOnFunction
  rw [foldl_append_singleton (fun bb => (bb.addr, blockStats LI bb))]

/-! ## Counting instructions by branch -/

theorem countP_classify_total (l : List Instruction) :
    l.countP (fun i => decide (classify i = .bin)) +
      l.countP (fun i => decide (classify i = .bitBin)) +
      l.countP (fun i => decide (classify i = .vec)) +
      l.countP (fun i => decide (classify i = .agg)) +
      l.countP (fun i => decide (classify i = .load)) +
      l.countP (fun i => decide (classify i = .store)) +
      l.countP (fun i => decide (classify i = .call)) +
      l.countP (fun i => decide (classify i = .other)) = l.length := by
  induction l with
  | nil => rfl
  | cons i l ih =>
    simp only [List.countP_cons, List.length_cons]
    cases h : classify i <;> simp <;> omega

theorem countP_accesses (l : List Instruction) :
    l.countP (accesses 2) + l.countP (accesses 1) + l.countP (accesses 0) ≤
        l.countP (fun i => decide (classify i = .load)) +
          l.countP (fun i => decide (classify i = .store)) ∧
      (l.countP (fun i => decide (classify i = .load)) +
          l.countP (fun i => decide (classify i = .store)) =
        l.countP (accesses 2) + l.countP (accesses 1) + l.countP (accesses 0) ↔
        ∀ i ∈ l, classify i = .load ∨ classify i = .store →
          i.pointerAddressSpace = 0 ∨ i.pointerAddressSpace = 1 ∨
            i.pointerAddressSpace = 2) := by
  induction l with
  | nil => simp
  | cons i l ih =>
    obtain ⟨ih1, ih2⟩ := ih
    simp only [List.countP_cons, List.forall_mem_cons]
    rw [← ih2]
    by_cases h0 : i.pointerAddressSpace = 0
    · cases h : classify i <;> simp [accesses, isMemOp, h, h0] <;> omega
    · by_cases h1 : i.pointerAddressSpace = 1
      · cases h : classify i <;> simp [accesses, isMemOp, h, h1] <;> omega
      · by_cases h2 : i.pointerAddressSpace = 2
        · cases h : classify i <;> simp [accesses, isMemOp, h, h2] <;> omega
        · cases h : classify i <;> simp [accesses, isMemOp, h, h0, h1, h2] <;> omega

/-! ## Reordering the table tests -/

theorem NameTable.eq_of_mem_names (t u : NameTable) :
    ∀ x ∈ t.names, x ∈ u.names → t = u := by
  cases t <;> cases u <;> decide

theorem NameTable.mem_all (t : NameTable) :
    t ∈ [NameTable.binOps, NameTable.bitBinOps, NameTable.vecOps, NameTable.aggOps] := by
  cases t <;> decide

theorem evalInstruction_eq_reordered (i : Instruction) (s : BasicBlockStatsData) :
    evalInstruction i s =
      evalInstructionReordered
        [NameTable.binOps, NameTable.bitBinOps, NameTable.vecOps, NameTable.aggOps] i s := by
  rfl

theorem evalInstructionReordered_of_mem (order : List NameTable) (t : NameTable)
    (i : Instruction) (s : BasicBlockStatsData) (ht : t ∈ order)
    (hx : i.opcodeName ∈ t.names) : evalInstructionReordered order i s = t.bump s := by
  induction order with
  | nil => cases ht
  | cons u rest ih =>
    unfold evalInstructionReordered
    by_cases hu : i.opcodeName ∈ u.names
    · rw [if_pos hu, NameTable.eq_of_mem_names u t _ hu hx]
    · rw [if_neg hu]
      rcases List.mem_cons.1 ht with e | hm
      · exact absurd (e ▸ hx) hu
      · exact ih hm

theorem evalInstructionReordered_of_not_mem (order : List NameTable) (i : Instruction)
    (s : BasicBlockStatsData) (h : ∀ t ∈ order, i.opcodeName ∉ t.names) :
    evalInstructionReordered order i s = evalAfterTables i s := by
  induction order with
  | nil => rfl
  | cons u rest ih =>
    unfold evalInstructionReordered
    rw [if_neg (h u (List.mem_cons_self _ _))]
    exact ih (fun t ht => h t (List.mem_cons_of_mem _ ht))


/-! ## Records as a function of instructions and loop answers -/

theorem classify_other_iff (i : Instruction) :
    classify i = .other ↔
      i.opcodeName ∉ BIN_OPS ∧ i.opcodeName ∉ BIT_BIN_OPS ∧ i.opcodeName ∉ VEC_OPS ∧
        i.opcodeName ∉ AGG_OPS ∧ i.opcodeName ≠ "call" ∧ i.kind ≠ InstKind.load ∧
        i.kind ≠ InstKind.store := by
  constructor
  · intro h
    unfold classify at h
    split_ifs at h
    exact ⟨by assumption, by assumption, by assumption, by assumption, by assumption,
      by assumption, by assumption⟩
  · rintro ⟨h1, h2, h3, h4, h5, h6, h7⟩
    unfold classify
    rw [if_neg h1, if_neg h2, if_neg h3, if_neg h4, if_neg h5, if_neg h6, if_neg h7]

theorem runOnFunction_drop (LI : Nat → Option Nat) (CurrFunc : List BasicBlock)
    (functionStats : BasicBlocks) :
    (runOnFunction LI CurrFunc functionStats).2.drop functionStats.length =
      CurrFunc.map (fun bb => (bb.addr, blockStats LI bb)) := by
  rw [runOnFunction_eq]
  show (functionStats ++ CurrFunc.map _).drop functionStats.length = _
  rw [List.drop_left]

theorem map_blockStats (LI : Nat → Option Nat) (F : List BasicBlock) :
    F.map (blockStats LI) =
      (F.map (fun bb => (bb.insts, LI bb.addr))).map
        (fun p => evalBlock p.1 { BasicBlockStatsData.init with OwnerLoop := p.2 }) := by
  rw [List.map_map]
  rfl


/-! ## Accumulation from a fresh record -/

theorem accesses_eq (a : Nat) (i : Instruction) :
    accesses a i =
      decide ((classify i = .load ∨ classify i = .store) ∧ i.pointerAddressSpace = a) := by
  unfold accesses isMemOp
  rw [Bool.decide_and]

theorem accesses_fun_eq (a : Nat) :
    accesses a =
      fun i => decide ((classify i = .load ∨ classify i = .store) ∧
        i.pointerAddressSpace = a) :=
  funext (accesses_eq a)

theorem evalBlock_init_counter (l : List Instruction) (c : OpCategory) :
    (evalBlock l BasicBlockStatsData.init).counter c =
      inc^[l.countP (fun i => decide (classify i = c))] 0 := by
  rw [evalBlock_counter]
  cases c <;> rfl

theorem evalBlock_init_counter_of_lt (l : List Instruction) (c : OpCategory)
    (h : l.length < 4294967296) :
    (evalBlock l BasicBlockStatsData.init).counter c =
      l.countP (fun i => decide (classify i = c)) := by
  rw [evalBlock_init_counter]
  exact inc_iterate_zero_of_lt (lt_of_le_of_lt (List.countP_le_length _) h)

theorem evalBlock_init_memAcc_of_lt (l : List Instruction) (h : l.length < 4294967296) :
    (evalBlock l BasicBlockStatsData.init).NumGlobalMemAcc = l.countP (accesses 2) ∧
      (evalBlock l BasicBlockStatsData.init).NumLocalMemAcc = l.countP (accesses 1) ∧
      (evalBlock l BasicBlockStatsData.init).NumPrivateMemAcc = l.countP (accesses 0) := by
  have lt : ∀ p : Instruction → Bool, l.countP p < 4294967296 :=
    fun p => lt_of_le_of_lt (List.countP_le_length p) h
  rw [evalBlock_NumGlobalMemAcc, evalBlock_NumLocalMemAcc, evalBlock_NumPrivateMemAcc]
  exact ⟨inc_iterate_zero_of_lt (lt _), inc_iterate_zero_of_lt (lt _),
    inc_iterate_zero_of_lt (lt _)⟩

/-- `n` loads from address space 0: the private counter and the number of such
loads. -/
theorem blockStats_private_replicate (LI : Nat → Option Nat) (a n : Nat) :
    (blockStats LI ⟨a, List.replicate n ⟨"load", .load, 0⟩⟩).NumPrivateMemAcc =
        n % 4294967296 ∧
      (List.replicate n (⟨"load", .load, 0⟩ : Instruction)).countP
          (fun i => decide ((classify i = .load ∨ classify i = .store) ∧
            i.pointerAddressSpace = 0)) = n := by
  have a00 : accesses 0 ⟨"load", .load, 0⟩ = true := by decide
  rw [← accesses_fun_eq, blockStats_NumPrivateMemAcc]
  simp only [List.countP_replicate, a00, if_true]
  exact ⟨by rw [inc_iterate n 0 (by decide), Nat.zero_add], trivial⟩

/-- `n` instructions `add`, alone and followed by one more `add`: the counter
`NumBinOps` from a fresh record. -/
theorem evalBlock_add_replicate (n : Nat) :
    (evalBlock (List.replicate n ⟨"add", .other, 0⟩ ++ [⟨"add", .other, 0⟩])
        BasicBlockStatsData.init).NumBinOps = (n + 1) % 4294967296 ∧
      (evalBlock (List.replicate n ⟨"add", .other, 0⟩)
        BasicBlockStatsData.init).NumBinOps = n % 4294967296 ∧
      (evalBlock [⟨"add", .other, 0⟩] BasicBlockStatsData.init).NumBinOps = 1 := by
  have c0 : classify ⟨"add", .other, 0⟩ = .bin := by decide
  have k1 := evalBlock_init_counter
    (List.replicate n ⟨"add", .other, 0⟩ ++ [⟨"add", .other, 0⟩]) .bin
  have k2 := evalBlock_init_counter (List.replicate n ⟨"add", .other, 0⟩) .bin
  simp only [List.countP_append, List.countP_replicate, List.countP_cons, List.countP_nil,
    c0, decide_True, if_true, Nat.zero_add] at k1 k2
  rw [inc_iterate _ 0 (by decide), Nat.zero_add] at k1 k2
  exact ⟨k1, k2, rfl⟩

/-! ## Permuting the instructions of a block -/

theorem BasicBlockStatsData.eq_of_fields (s t : BasicBlockStatsData)
    (h0 : s.OwnerLoop = t.OwnerLoop) (hc : ∀ c : OpCategory, s.counter c = t.counter c)
    (hG : s.NumGlobalMemAcc = t.NumGlobalMemAcc)
    (hL : s.NumLocalMemAcc = t.NumLocalMemAcc)
    (hP : s.NumPrivateMemAcc = t.NumPrivateMemAcc) : s = t := by
  have h1 := hc .bin
  have h2 := hc .bitBin
  have h3 := hc .vec
  have h4 := hc .agg
  have h5 := hc .load
  have h6 := hc .store
  have h7 := hc .call
  have h8 := hc .other
  cases s
  cases t
  simp only [BasicBlockStatsData.counter] at h1 h2 h3 h4 h5 h6 h7 h8
  simp only at h0 hG hL hP
  subst h0 h1 h2 h3 h4 h5 h6 h7 h8 hG hL hP
  rfl

theorem evalBlock_perm (xs ys : List Instruction) (h : xs.Perm ys)
    (s : BasicBlockStatsData) : evalBlock xs s = evalBlock ys s := by
  apply BasicBlockStatsData.eq_of_fields
  · rw [evalBlock_OwnerLoop, evalBlock_OwnerLoop]
  · intro c
    rw [evalBlock_counter, evalBlock_counter, h.countP_eq]
  · rw [evalBlock_NumGlobalMemAcc, evalBlock_NumGlobalMemAcc, h.countP_eq]
  · rw [evalBlock_NumLocalMemAcc, evalBlock_NumLocalMemAcc, h.countP_eq]
  · rw [evalBlock_NumPrivateMemAcc, evalBlock_NumPrivateMemAcc, h.countP_eq]


/-! ## C1 -/

/-- C1 as stated fails: on a record whose `NumBinOps` is 4294967295, an `add`
wraps that counter to 0, so no category counter has increased by 1. -/
theorem C1_counterexample :
    ¬ ∃ c : OpCategory,
        (evalInstruction ⟨"add", .other, 0⟩
            { BasicBlockStatsData.init with NumBinOps := 4294967295 }).counter c =
          ({ BasicBlockStatsData.init with NumBinOps := 4294967295 } :
            BasicBlockStatsData).counter c + 1 ∧
        ∀ c2 : OpCategory, c2 ≠ c →
          (evalInstruction ⟨"add", .other, 0⟩
              { BasicBlockStatsData.init with NumBinOps := 4294967295 }).counter c2 =
            ({ BasicBlockStatsData.init with NumBinOps := 4294967295 } :
              BasicBlockStatsData).counter c2 := by
  rintro ⟨c, h, -⟩
  cases c <;> revert h <;> decide

/-- C1 (amended): `evalInstruction` is a total function; for every instruction
and every starting record exactly one of the eight category counters changes
(the one of the branch taken), the other seven are unchanged, and the changed
counter is increased by exactly 1 whenever it is below 4294967295. -/
theorem C1_evalInstruction_exactly_one (i : Instruction) (s : BasicBlockStatsData) :
    ∃ c : OpCategory,
      (evalInstruction i s).counter c ≠ s.counter c ∧
      (s.counter c < UINT_MAX → (evalInstruction i s).counter c = s.counter c + 1) ∧
      (∀ c2 : OpCategory, c2 ≠ c → (evalInstruction i s).counter c2 = s.counter c2) ∧
      (∀ c2 : OpCategory, (evalInstruction i s).counter c2 ≠ s.counter c2 → c2 = c) := by
  refine ⟨classify i, ?_, ?_, ?_, ?_⟩
  · rw [evalInstruction_counter, if_pos rfl]
    exact inc_ne_self _
  · intro h
    rw [evalInstruction_counter, if_pos rfl]
    exact inc_of_lt h
  · intro c2 h
    rw [evalInstruction_counter, if_neg h]
  · intro c2 h
    by_contra hne
    exact h (by rw [evalInstruction_counter, if_neg hne])

/-! ## C2 -/

/-- C2 as stated fails: for a block of 4294967296 `add` instructions the
counter `NumBinOps` has wrapped back to 0, so the eight category counters sum to
0 and not to the number of instructions. -/
theorem C2_counterexample :
    (blockStats (fun _ => none)
        ⟨0, List.replicate 4294967296 ⟨"add", .other, 0⟩⟩).NumBinOps +
      (blockStats (fun _ => none)
        ⟨0, List.replicate 4294967296 ⟨"add", .other, 0⟩⟩).NumBitBinOps +
      (blockStats (fun _ => none)
        ⟨0, List.replicate 4294967296 ⟨"add", .other, 0⟩⟩).NumVecOps +
      (blockStats (fun _ => none)
        ⟨0, List.replicate 4294967296 ⟨"add", .other, 0⟩⟩).NumAggOps +
      (blockStats (fun _ => none)
        ⟨0, List.replicate 4294967296 ⟨"add", .other, 0⟩⟩).NumLoadOps +
      (blockStats (fun _ => none)
        ⟨0, List.replicate 4294967296 ⟨"add", .other, 0⟩⟩).NumStoreOps +
      (blockStats (fun _ => none)
        ⟨0, List.replicate 4294967296 ⟨"add", .other, 0⟩⟩).NumCallOps +
      (blockStats (fun _ => none)
        ⟨0, List.replicate 4294967296 ⟨"add", .other, 0⟩⟩).NumOtherOps ≠
      (List.replicate 4294967296 (⟨"add", .other, 0⟩ : Instruction)).length := by
  rw [blockStats_replicate_categorySum, List.length_replicate]
  exact Nat.ne_of_lt (Nat.mod_lt _ (by decide))

/-- C2 (amended): for every basic block with fewer than 4294967296 instructions,
the record built by the per-block walk of `runOnFunction` from a fresh record
has its eight category counters summing to the number of instructions. -/
theorem C2_category_sum_eq_length (LI : Nat → Option Nat) (bb : BasicBlock)
    (h : bb.insts.length < 4294967296) :
    (blockStats LI bb).NumBinOps + (blockStats LI bb).NumBitBinOps +
      (blockStats LI bb).NumVecOps + (blockStats LI bb).NumAggOps +
      (blockStats LI bb).NumLoadOps + (blockStats LI bb).NumStoreOps +
      (blockStats LI bb).NumCallOps + (blockStats LI bb).NumOtherOps =
      bb.insts.length := by
  have h1 := blockStats_counter_of_lt LI bb h .bin
  have h2 := blockStats_counter_of_lt LI bb h .bitBin
  have h3 := blockStats_counter_of_lt LI bb h .vec
  have h4 := blockStats_counter_of_lt LI bb h .agg
  have h5 := blockStats_counter_of_lt LI bb h .load
  have h6 := blockStats_counter_of_lt LI bb h .store
  have h7 := blockStats_counter_of_lt LI bb h .call
  have h8 := blockStats_counter_of_lt LI bb h .other
  simp only [BasicBlockStatsData.counter] at h1 h2 h3 h4 h5 h6 h7 h8
  rw [h1, h2, h3, h4, h5, h6, h7, h8]
  exact countP_classify_total bb.insts

/-- C2 witness: a block of an `add`, a load, a `call` and a `br`. -/
theorem C2_witness :
    (BasicBlock.mk 7 [⟨"add", .other, 0⟩, ⟨"load", .load, 1⟩, ⟨"call", .other, 0⟩,
        ⟨"br", .other, 0⟩]).insts.length < 4294967296 ∧
      (blockStats (fun _ => some 3)
          ⟨7, [⟨"add", .other, 0⟩, ⟨"load", .load, 1⟩, ⟨"call", .other, 0⟩,
            ⟨"br", .other, 0⟩]⟩).NumBinOps +
        (blockStats (fun _ => some 3)
          ⟨7, [⟨"add", .other, 0⟩, ⟨"load", .load, 1⟩, ⟨"call", .other, 0⟩,
            ⟨"br", .other, 0⟩]⟩).NumBitBinOps +
        (blockStats (fun _ => some 3)
          ⟨7, [⟨"add", .other, 0⟩, ⟨"load", .load, 1⟩, ⟨"call", .other, 0⟩,
            ⟨"br", .other, 0⟩]⟩).NumVecOps +
        (blockStats (fun _ => some 3)
          ⟨7, [⟨"add", .other, 0⟩, ⟨"load", .load, 1⟩, ⟨"call", .other, 0⟩,
            ⟨"br", .other, 0⟩]⟩).NumAggOps +
        (blockStats (fun _ => some 3)
          ⟨7, [⟨"add", .other, 0⟩, ⟨"load", .load, 1⟩, ⟨"call", .other, 0⟩,
            ⟨"br", .other, 0⟩]⟩).NumLoadOps +
        (blockStats (fun _ => some 3)
          ⟨7, [⟨"add", .other, 0⟩, ⟨"load", .load, 1⟩, ⟨"call", .other, 0⟩,
            ⟨"br", .other, 0⟩]⟩).NumStoreOps +
        (blockStats (fun _ => some 3)
          ⟨7, [⟨"add", .other, 0⟩, ⟨"load", .load, 1⟩, ⟨"call", .other, 0⟩,
            ⟨"br", .other, 0⟩]⟩).NumCallOps +
        (blockStats (fun _ => some 3)
          ⟨7, [⟨"add", .other, 0⟩, ⟨"load", .load, 1⟩, ⟨"call", .other, 0⟩,
            ⟨"br", .other, 0⟩]⟩).NumOtherOps = 4 :=
  ⟨by decide, C2_category_sum_eq_length (fun _ => some 3) _ (by decide)⟩

/-! ## C3 -/

/-- C3 as stated fails: in a block of one load from address space 1 followed by
4294967295 loads from address space 0, `NumLoadOps` has wrapped to 0 while
`NumLocalMemAcc` is 1 and `NumPrivateMemAcc` is 4294967295, so the inequality
`NumLoadOps + NumStoreOps >= NumGlobalMemAcc + NumLocalMemAcc + NumPrivateMemAcc`
does not hold. -/
theorem C3_counterexample :
    ¬ ((blockStats (fun _ => none) ⟨0, ⟨"load", .load, 1⟩ ::
            List.replicate 4294967295 ⟨"load", .load, 0⟩⟩).NumLoadOps +
          (blockStats (fun _ => none) ⟨0, ⟨"load", .load, 1⟩ ::
            List.replicate 4294967295 ⟨"load", .load, 0⟩⟩).NumStoreOps ≥
        (blockStats (fun _ => none) ⟨0, ⟨"load", .load, 1⟩ ::
            List.replicate 4294967295 ⟨"load", .load, 0⟩⟩).NumGlobalMemAcc +
          (blockStats (fun _ => none) ⟨0, ⟨"load", .load, 1⟩ ::
            List.replicate 4294967295 ⟨"load", .load, 0⟩⟩).NumLocalMemAcc +
          (blockStats (fun _ => none) ⟨0, ⟨"load", .load, 1⟩ ::
            List.replicate 4294967295 ⟨"load", .load, 0⟩⟩).NumPrivateMemAcc) := by
  obtain ⟨h1, h2, h3, h4, h5⟩ := blockStats_loads (fun _ => none) 0 4294967295
  rw [h1, h2, h3, h4, h5]
  decide

/-- C3 (amended): for every basic block with fewer than 4294967296 instructions,
the accumulated record satisfies
`NumLoadOps + NumStoreOps >= NumGlobalMemAcc + NumLocalMemAcc + NumPrivateMemAcc`,
and equality holds if and only if every instruction of the block that is counted
as a load or a store has a pointer address space in {0, 1, 2}. -/
theorem C3_loadStore_ge_memAcc (LI : Nat → Option Nat) (bb : BasicBlock)
    (h : bb.insts.length < 4294967296) :
    (blockStats LI bb).NumLoadOps + (blockStats LI bb).NumStoreOps ≥
        (blockStats LI bb).NumGlobalMemAcc + (blockStats LI bb).NumLocalMemAcc +
          (blockStats LI bb).NumPrivateMemAcc ∧
      ((blockStats LI bb).NumLoadOps + (blockStats LI bb).NumStoreOps =
          (blockStats LI bb).NumGlobalMemAcc + (blockStats LI bb).NumLocalMemAcc +
            (blockStats LI bb).NumPrivateMemAcc ↔
        ∀ i ∈ bb.insts, classify i = .load ∨ classify i = .store →
          i.pointerAddressSpace = 0 ∨ i.pointerAddressSpace = 1 ∨
            i.pointerAddressSpace = 2) := by
  have lt : ∀ p : Instruction → Bool, bb.insts.countP p < 4294967296 :=
    fun p => lt_of_le_of_lt (List.countP_le_length p) h
  rw [blockStats_NumLoadOps, blockStats_NumStoreOps, blockStats_NumGlobalMemAcc,
    blockStats_NumLocalMemAcc, blockStats_NumPrivateMemAcc,
    inc_iterate_zero_of_lt (lt _), inc_iterate_zero_of_lt (lt _),
    inc_iterate_zero_of_lt (lt _), inc_iterate_zero_of_lt (lt _),
    inc_iterate_zero_of_lt (lt _)]
  exact countP_accesses bb.insts

/-- C3 witness: a block with a load from address space 1, a store to address
space 7 and a `br`. -/
theorem C3_witness :
    (BasicBlock.mk 7 [⟨"load", .load, 1⟩, ⟨"store", .store, 7⟩,
        ⟨"br", .other, 0⟩]).insts.length < 4294967296 ∧
      ((blockStats (fun _ => none) ⟨7, [⟨"load", .load, 1⟩, ⟨"store", .store, 7⟩,
            ⟨"br", .other, 0⟩]⟩).NumLoadOps +
          (blockStats (fun _ => none) ⟨7, [⟨"load", .load, 1⟩, ⟨"store", .store, 7⟩,
            ⟨"br", .other, 0⟩]⟩).NumStoreOps ≥
        (blockStats (fun _ => none) ⟨7, [⟨"load", .load, 1⟩, ⟨"store", .store, 7⟩,
            ⟨"br", .other, 0⟩]⟩).NumGlobalMemAcc +
          (blockStats (fun _ => none) ⟨7, [⟨"load", .load, 1⟩, ⟨"store", .store, 7⟩,
            ⟨"br", .other, 0⟩]⟩).NumLocalMemAcc +
          (blockStats (fun _ => none) ⟨7, [⟨"load", .load, 1⟩, ⟨"store", .store, 7⟩,
            ⟨"br", .other, 0⟩]⟩).NumPrivateMemAcc) :=
  ⟨by decide,
   (C3_loadStore_ge_memAcc (fun _ => none)
      ⟨7, [⟨"load", .load, 1⟩, ⟨"store", .store, 7⟩, ⟨"br", .other, 0⟩]⟩
      (by decide)).1⟩

/-! ## C4 -/

/-- C4: name-table classification is exact.  For every instruction and record,
`evalInstruction` applies the increment to `NumBinOps` iff the opcode name is one
of add, fadd, sub, fsub, mul, fmul, udiv, sdiv, fdiv, urem, srem, frem, and leaves
it unchanged otherwise; likewise `NumBitBinOps` for shl, lshr, ashr, and, or, xor;
`NumVecOps` for extractelement, insertelement, shufflevector; `NumAggOps` for
extractvalue, insertvalue.  The match is exact string equality: `ADD` and `add `
(trailing blank) are in none of the four tables. -/
theorem C4_name_tables_exact (i : Instruction) (s : BasicBlockStatsData) :
    ((evalInstruction i s).NumBinOps = inc s.NumBinOps ↔
        i.opcodeName ∈ ["add", "fadd", "sub", "fsub", "mul", "fmul", "udiv", "sdiv",
          "fdiv", "urem", "srem", "frem"]) ∧
      ((evalInstruction i s).NumBinOps = s.NumBinOps ↔
        i.opcodeName ∉ ["add", "fadd", "sub", "fsub", "mul", "fmul", "udiv", "sdiv",
          "fdiv", "urem", "srem", "frem"]) ∧
      ((evalInstruction i s).NumBitBinOps = inc s.NumBitBinOps ↔
        i.opcodeName ∈ ["shl", "lshr", "ashr", "and", "or", "xor"]) ∧
      ((evalInstruction i s).NumBitBinOps = s.NumBitBinOps ↔
        i.opcodeName ∉ ["shl", "lshr", "ashr", "and", "or", "xor"]) ∧
      ((evalInstruction i s).NumVecOps = inc s.NumVecOps ↔
        i.opcodeName ∈ ["extractelement", "insertelement", "shufflevector"]) ∧
      ((evalInstruction i s).NumVecOps = s.NumVecOps ↔
        i.opcodeName ∉ ["extractelement", "insertelement", "shufflevector"]) ∧
      ((evalInstruction i s).NumAggOps = inc s.NumAggOps ↔
        i.opcodeName ∈ ["extractvalue", "insertvalue"]) ∧
      ((evalInstruction i s).NumAggOps = s.NumAggOps ↔
        i.opcodeName ∉ ["extractvalue", "insertvalue"]) ∧
      ("ADD" ∉ BIN_OPS ∧ "ADD" ∉ BIT_BIN_OPS ∧ "ADD" ∉ VEC_OPS ∧ "ADD" ∉ AGG_OPS) ∧
      ("add " ∉ BIN_OPS ∧ "add " ∉ BIT_BIN_OPS ∧ "add " ∉ VEC_OPS ∧ "add " ∉ AGG_OPS) := by
  have key : ∀ c : OpCategory,
      ((evalInstruction i s).counter c = inc (s.counter c) ↔ classify i = c) ∧
        ((evalInstruction i s).counter c = s.counter c ↔ ¬ classify i = c) := by
    intro c
    rw [evalInstruction_counter]
    by_cases h : c = classify i
    · rw [if_pos h]
      exact ⟨⟨fun _ => h.symm, fun _ => rfl⟩,
        ⟨fun e => absurd e (inc_ne_self _), fun n => absurd h.symm n⟩⟩
    · rw [if_neg h]
      exact ⟨⟨fun e => absurd e.symm (inc_ne_self _), fun e => absurd e.symm h⟩,
        ⟨fun _ e => h e.symm, fun _ => rfl⟩⟩
  refine ⟨?_, ?_, ?_, ?_, ?_, ?_, ?_, ?_, by decide, by decide⟩
  · exact (key .bin).1.trans (classify_bin_iff i)
  · exact (key .bin).2.trans (not_congr (classify_bin_iff i))
  · exact (key .bitBin).1.trans (classify_bitBin_iff i)
  · exact (key .bitBin).2.trans (not_congr (classify_bitBin_iff i))
  · exact (key .vec).1.trans (classify_vec_iff i)
  · exact (key .vec).2.trans (not_congr (classify_vec_iff i))
  · exact (key .agg).1.trans (classify_agg_iff i)
  · exact (key .agg).2.trans (not_congr (classify_agg_iff i))

/-! ## C5 -/

/-- C5 as stated fails: `load` from address space 0 is classified as a Load, but
on a record whose `NumLoadOps` is 4294967295 the counter wraps to 0 instead of
growing by 1. -/
theorem C5_counterexample :
    ("load" ∉ BIN_OPS ∧ "load" ∉ BIT_BIN_OPS ∧ "load" ∉ VEC_OPS ∧ "load" ∉ AGG_OPS ∧
        "load" ≠ "call") ∧
      (evalInstruction ⟨"load", .load, 0⟩
          { BasicBlockStatsData.init with NumLoadOps := 4294967295 }).NumLoadOps ≠
        ({ BasicBlockStatsData.init with NumLoadOps := 4294967295 } :
          BasicBlockStatsData).NumLoadOps + 1 := by
  decide

/-- C5 (amended): for every instruction classified as a Load (resp. Store), i.e.
structurally a load (resp. store) whose opcode name is in none of the four tables
and is not `call`, `evalInstruction` applies the increment to `NumLoadOps` (resp.
`NumStoreOps`) and, when the pointer address space is 0, to `NumPrivateMemAcc`
only among the three address-space counters; when 1, to `NumLocalMemAcc` only;
when 2, to `NumGlobalMemAcc` only.  Each incremented counter grows by exactly 1
provided it is below 4294967295. -/
theorem C5_load_store_attribution (i : Instruction) (s : BasicBlockStatsData)
    (h1 : i.opcodeName ∉ BIN_OPS) (h2 : i.opcodeName ∉ BIT_BIN_OPS)
    (h3 : i.opcodeName ∉ VEC_OPS) (h4 : i.opcodeName ∉ AGG_OPS)
    (h5 : i.opcodeName ≠ "call")
    (hk : i.kind = InstKind.load ∨ i.kind = InstKind.store) :
    (i.kind = InstKind.load →
        (evalInstruction i s).NumLoadOps = inc s.NumLoadOps ∧
          (s.NumLoadOps < UINT_MAX →
            (evalInstruction i s).NumLoadOps = s.NumLoadOps + 1)) ∧
      (i.kind = InstKind.store →
        (evalInstruction i s).NumStoreOps = inc s.NumStoreOps ∧
          (s.NumStoreOps < UINT_MAX →
            (evalInstruction i s).NumStoreOps = s.NumStoreOps + 1)) ∧
      (i.pointerAddressSpace = 0 →
        (evalInstruction i s).NumPrivateMemAcc = inc s.NumPrivateMemAcc ∧
          (s.NumPrivateMemAcc < UINT_MAX →
            (evalInstruction i s).NumPrivateMemAcc = s.NumPrivateMemAcc + 1) ∧
          (evalInstruction i s).NumLocalMemAcc = s.NumLocalMemAcc ∧
          (evalInstruction i s).NumGlobalMemAcc = s.NumGlobalMemAcc) ∧
      (i.pointerAddressSpace = 1 →
        (evalInstruction i s).NumLocalMemAcc = inc s.NumLocalMemAcc ∧
          (s.NumLocalMemAcc < UINT_MAX →
            (evalInstruction i s).NumLocalMemAcc = s.NumLocalMemAcc + 1) ∧
          (evalInstruction i s).NumPrivateMemAcc = s.NumPrivateMemAcc ∧
          (evalInstruction i s).NumGlobalMemAcc = s.NumGlobalMemAcc) ∧
      (i.pointerAddressSpace = 2 →
        (evalInstruction i s).NumGlobalMemAcc = inc s.NumGlobalMemAcc ∧
          (s.NumGlobalMemAcc < UINT_MAX →
            (evalInstruction i s).NumGlobalMemAcc = s.NumGlobalMemAcc + 1) ∧
          (evalInstruction i s).NumPrivateMemAcc = s.NumPrivateMemAcc ∧
          (evalInstruction i s).NumLocalMemAcc = s.NumLocalMemAcc) := by
  have hm : isMemOp i = true := by
    unfold isMemOp
    rcases hk with hk | hk
    · exact decide_eq_true (Or.inl (classify_load_of i h1 h2 h3 h4 h5 hk))
    · exact decide_eq_true (Or.inr (classify_store_of i h1 h2 h3 h4 h5 hk))
  have hP := evalInstruction_NumPrivateMemAcc i s
  have hL := evalInstruction_NumLocalMemAcc i s
  have hG := evalInstruction_NumGlobalMemAcc i s
  simp only [accesses, hm, Bool.true_and, decide_eq_true_eq] at hP hL hG
  refine ⟨fun hl => ?_, fun hs => ?_, fun h0 => ?_, fun h0 => ?_, fun h0 => ?_⟩
  · have e : (evalInstruction i s).NumLoadOps = inc s.NumLoadOps := by
      have := evalInstruction_counter i s .load
      rw [classify_load_of i h1 h2 h3 h4 h5 hl, if_pos rfl] at this
      exact this
    exact ⟨e, fun hlt => e.trans (inc_of_lt hlt)⟩
  · have e : (evalInstruction i s).NumStoreOps = inc s.NumStoreOps := by
      have := evalInstruction_counter i s .store
      rw [classify_store_of i h1 h2 h3 h4 h5 hs, if_pos rfl] at this
      exact this
    exact ⟨e, fun hlt => e.trans (inc_of_lt hlt)⟩
  · rw [h0] at hP hL hG
    rw [if_pos rfl] at hP
    rw [if_neg (by decide)] at hL hG
    exact ⟨hP, fun hlt => hP.trans (inc_of_lt hlt), hL, hG⟩
  · rw [h0] at hP hL hG
    rw [if_pos rfl] at hL
    rw [if_neg (by decide)] at hP hG
    exact ⟨hL, fun hlt => hL.trans (inc_of_lt hlt), hP, hG⟩
  · rw [h0] at hP hL hG
    rw [if_pos rfl] at hG
    rw [if_neg (by decide)] at hP hL
    exact ⟨hG, fun hlt => hG.trans (inc_of_lt hlt), hP, hL⟩

/-- C5 witness: a store to address space 2 on a fresh record. -/
theorem C5_witness :
    (("store" ∉ BIN_OPS ∧ "store" ∉ BIT_BIN_OPS ∧ "store" ∉ VEC_OPS ∧
        "store" ∉ AGG_OPS ∧ "store" ≠ "call") ∧
      ((⟨"store", .store, 2⟩ : Instruction).kind = InstKind.load ∨
        (⟨"store", .store, 2⟩ : Instruction).kind = InstKind.store)) ∧
      (evalInstruction ⟨"store", .store, 2⟩ BasicBlockStatsData.init).NumStoreOps =
        BasicBlockStatsData.init.NumStoreOps + 1 ∧
      (evalInstruction ⟨"store", .store, 2⟩ BasicBlockStatsData.init).NumGlobalMemAcc =
        BasicBlockStatsData.init.NumGlobalMemAcc + 1 :=
  ⟨by decide,
   ((C5_load_store_attribution ⟨"store", .store, 2⟩ BasicBlockStatsData.init
      (by decide) (by decide) (by decide) (by decide) (by decide)
      (Or.inr rfl)).2.1 rfl).2 (by decide),
   ((C5_load_store_attribution ⟨"store", .store, 2⟩ BasicBlockStatsData.init
      (by decide) (by decide) (by decide) (by decide) (by decide)
      (Or.inr rfl)).2.2.2.2 rfl).2.1 (by decide)⟩

/-! ## C6 -/

/-- C6 as stated fails: a `load` from the unrecognised address space 7 on a
record whose `NumLoadOps` is 4294967295 wraps that counter to 0 instead of
growing it by 1. -/
theorem C6_counterexample :
    ("load" ∉ BIN_OPS ∧ "load" ∉ BIT_BIN_OPS ∧ "load" ∉ VEC_OPS ∧ "load" ∉ AGG_OPS ∧
        "load" ≠ "call") ∧
      (evalInstruction ⟨"load", .load, 7⟩
          { BasicBlockStatsData.init with NumLoadOps := 4294967295 }).NumLoadOps ≠
        ({ BasicBlockStatsData.init with NumLoadOps := 4294967295 } :
          BasicBlockStatsData).NumLoadOps + 1 := by
  decide

/-- C6 (amended): for every instruction counted as a load (resp. store) whose
pointer address space is outside {0, 1, 2}, `evalInstruction` changes nothing but
`NumLoadOps` (resp. `NumStoreOps`), to which it applies the increment, so the three
address-space counters are unchanged and no error is raised; the counter grows by
exactly 1 provided it is below 4294967295.  In particular a block consisting of
one load from address space 7 yields `NumLoadOps = 1` and the three address-space
counters equal to 0. -/
theorem C6_unknown_address_space (i : Instruction) (s : BasicBlockStatsData)
    (h1 : i.opcodeName ∉ BIN_OPS) (h2 : i.opcodeName ∉ BIT_BIN_OPS)
    (h3 : i.opcodeName ∉ VEC_OPS) (h4 : i.opcodeName ∉ AGG_OPS)
    (h5 : i.opcodeName ≠ "call")
    (hk : i.kind = InstKind.load ∨ i.kind = InstKind.store)
    (ha : i.pointerAddressSpace ≠ 0 ∧ i.pointerAddressSpace ≠ 1 ∧
      i.pointerAddressSpace ≠ 2) :
    (i.kind = InstKind.load →
        evalInstruction i s = { s with NumLoadOps := inc s.NumLoadOps } ∧
          (s.NumLoadOps < UINT_MAX →
            (evalInstruction i s).NumLoadOps = s.NumLoadOps + 1)) ∧
      (i.kind = InstKind.store →
        evalInstruction i s = { s with NumStoreOps := inc s.NumStoreOps } ∧
          (s.NumStoreOps < UINT_MAX →
            (evalInstruction i s).NumStoreOps = s.NumStoreOps + 1)) ∧
      ((evalInstruction i s).NumPrivateMemAcc = s.NumPrivateMemAcc ∧
        (evalInstruction i s).NumLocalMemAcc = s.NumLocalMemAcc ∧
        (evalInstruction i s).NumGlobalMemAcc = s.NumGlobalMemAcc) ∧
      (∀ (LI : Nat → Option Nat) (a : Nat),
        (blockStats LI ⟨a, [⟨"load", .load, 7⟩]⟩).NumLoadOps = 1 ∧
          (blockStats LI ⟨a, [⟨"load", .load, 7⟩]⟩).NumPrivateMemAcc = 0 ∧
          (blockStats LI ⟨a, [⟨"load", .load, 7⟩]⟩).NumLocalMemAcc = 0 ∧
          (blockStats LI ⟨a, [⟨"load", .load, 7⟩]⟩).NumGlobalMemAcc = 0) := by
  obtain ⟨a0, a1, a2⟩ := ha
  have el : i.kind = InstKind.load →
      evalInstruction i s = { s with NumLoadOps := inc s.NumLoadOps } := by
    intro hl
    rw [evalInstruction_of_load i s (classify_load_of i h1 h2 h3 h4 h5 hl),
      checkAddrSpace_unknown _ _ a0 a1 a2]
  have es : i.kind = InstKind.store →
      evalInstruction i s = { s with NumStoreOps := inc s.NumStoreOps } := by
    intro hs
    rw [evalInstruction_of_store i s (classify_store_of i h1 h2 h3 h4 h5 hs),
      checkAddrSpace_unknown _ _ a0 a1 a2]
  refine ⟨fun hl => ⟨el hl, fun hlt => ?_⟩, fun hs => ⟨es hs, fun hlt => ?_⟩, ?_,
    fun LI a => ⟨rfl, rfl, rfl, rfl⟩⟩
  · rw [el hl]
    exact inc_of_lt hlt
  · rw [es hs]
    exact inc_of_lt hlt
  · rcases hk with hk | hk
    · rw [el hk]
      exact ⟨rfl, rfl, rfl⟩
    · rw [es hk]
      exact ⟨rfl, rfl, rfl⟩

/-- C6 witness: a load from address space 7 on a fresh record. -/
theorem C6_witness :
    (("load" ∉ BIN_OPS ∧ "load" ∉ BIT_BIN_OPS ∧ "load" ∉ VEC_OPS ∧ "load" ∉ AGG_OPS ∧
        "load" ≠ "call") ∧
      ((⟨"load", .load, 7⟩ : Instruction).kind = InstKind.load ∨
        (⟨"load", .load, 7⟩ : Instruction).kind = InstKind.store) ∧
      ((⟨"load", .load, 7⟩ : Instruction).pointerAddressSpace ≠ 0 ∧
        (⟨"load", .load, 7⟩ : Instruction).pointerAddressSpace ≠ 1 ∧
        (⟨"load", .load, 7⟩ : Instruction).pointerAddressSpace ≠ 2)) ∧
      evalInstruction ⟨"load", .load, 7⟩ BasicBlockStatsData.init =
        { BasicBlockStatsData.init with NumLoadOps := 1 } :=
  ⟨by decide,
   ((C6_unknown_address_space ⟨"load", .load, 7⟩ BasicBlockStatsData.init
      (by decide) (by decide) (by decide) (by decide) (by decide) (Or.inl rfl)
      (by decide)).1 rfl).1⟩

/-! ## C7 -/

/-- C7 as stated fails: on a record whose `NumCallOps` is 4294967295 a `call`
wraps that counter to 0 instead of growing it by 1. -/
theorem C7_counterexample :
    (evalInstruction ⟨"call", .other, 0⟩
        { BasicBlockStatsData.init with NumCallOps := 4294967295 }).NumCallOps ≠
      ({ BasicBlockStatsData.init with NumCallOps := 4294967295 } :
        BasicBlockStatsData).NumCallOps + 1 := by
  decide

/-- C7 (amended): for every instruction whose opcode name is exactly `call`,
whatever its structural kind and pointer address space, `evalInstruction` changes
nothing but `NumCallOps`, to which it applies the increment (so `NumOtherOps`,
`NumLoadOps`, `NumStoreOps` and the three address-space counters are unchanged);
`NumCallOps` grows by exactly 1 provided it is below 4294967295.  Conversely, for
any other opcode name `NumCallOps` is unchanged. -/
theorem C7_call (i : Instruction) (s : BasicBlockStatsData) :
    (i.opcodeName = "call" →
        evalInstruction i s = { s with NumCallOps := inc s.NumCallOps } ∧
          (s.NumCallOps < UINT_MAX →
            (evalInstruction i s).NumCallOps = s.NumCallOps + 1)) ∧
      (i.opcodeName ≠ "call" → (evalInstruction i s).NumCallOps = s.NumCallOps) ∧
      ((evalInstruction i s).NumCallOps ≠ s.NumCallOps → i.opcodeName = "call") := by
  have hn : i.opcodeName ≠ "call" → (evalInstruction i s).NumCallOps = s.NumCallOps := by
    intro h
    have := evalInstruction_counter i s .call
    rw [if_neg (fun e => h ((classify_call_iff i).1 e.symm))] at this
    exact this
  refine ⟨fun h => ?_, hn, fun h => ?_⟩
  · have e : evalInstruction i s = { s with NumCallOps := inc s.NumCallOps } := by
      rw [evalInstruction_eq, (classify_call_iff i).2 h]
    refine ⟨e, fun hlt => ?_⟩
    rw [e]
    exact inc_of_lt hlt
  · by_contra hc
    exact h (hn hc)

/-- C7 witness: a `call` that is structurally a load, on a fresh record. -/
theorem C7_witness :
    (⟨"call", .load, 1⟩ : Instruction).opcodeName = "call" ∧
      evalInstruction ⟨"call", .load, 1⟩ BasicBlockStatsData.init =
        { BasicBlockStatsData.init with NumCallOps := 1 } :=
  ⟨rfl, ((C7_call ⟨"call", .load, 1⟩ BasicBlockStatsData.init).1 rfl).1⟩

/-! ## C8 -/

/-- C8: name-set membership has priority over structural kind.  For every
instruction that is structurally a load or a store but whose opcode name is in
one of the four name tables, `evalInstruction` changes nothing but that table's
counter, to which it applies the increment: `NumLoadOps`, `NumStoreOps` and the
three address-space counters are unchanged. -/
theorem C8_name_table_priority (i : Instruction) (s : BasicBlockStatsData)
    (_hk : i.kind = InstKind.load ∨ i.kind = InstKind.store) :
    (i.opcodeName ∈ BIN_OPS →
        evalInstruction i s = { s with NumBinOps := inc s.NumBinOps }) ∧
      (i.opcodeName ∈ BIT_BIN_OPS →
        evalInstruction i s = { s with NumBitBinOps := inc s.NumBitBinOps }) ∧
      (i.opcodeName ∈ VEC_OPS →
        evalInstruction i s = { s with NumVecOps := inc s.NumVecOps }) ∧
      (i.opcodeName ∈ AGG_OPS →
        evalInstruction i s = { s with NumAggOps := inc s.NumAggOps }) ∧
      (i.opcodeName ∈ BIN_OPS ∨ i.opcodeName ∈ BIT_BIN_OPS ∨ i.opcodeName ∈ VEC_OPS ∨
          i.opcodeName ∈ AGG_OPS →
        (evalInstruction i s).NumLoadOps = s.NumLoadOps ∧
          (evalInstruction i s).NumStoreOps = s.NumStoreOps ∧
          (evalInstruction i s).NumPrivateMemAcc = s.NumPrivateMemAcc ∧
          (evalInstruction i s).NumLocalMemAcc = s.NumLocalMemAcc ∧
          (evalInstruction i s).NumGlobalMemAcc = s.NumGlobalMemAcc) := by
  have b1 : i.opcodeName ∈ BIN_OPS →
      evalInstruction i s = { s with NumBinOps := inc s.NumBinOps } := by
    intro h
    rw [evalInstruction_eq, (classify_bin_iff i).2 h]
  have b2 : i.opcodeName ∈ BIT_BIN_OPS →
      evalInstruction i s = { s with NumBitBinOps := inc s.NumBitBinOps } := by
    intro h
    rw [evalInstruction_eq, (classify_bitBin_iff i).2 h]
  have b3 : i.opcodeName ∈ VEC_OPS →
      evalInstruction i s = { s with NumVecOps := inc s.NumVecOps } := by
    intro h
    rw [evalInstruction_eq, (classify_vec_iff i).2 h]
  have b4 : i.opcodeName ∈ AGG_OPS →
      evalInstruction i s = { s with NumAggOps := inc s.NumAggOps } := by
    intro h
    rw [evalInstruction_eq, (classify_agg_iff i).2 h]
  refine ⟨b1, b2, b3, b4, ?_⟩
  rintro (h | h | h | h)
  · rw [b1 h]
    exact ⟨rfl, rfl, rfl, rfl, rfl⟩
  · rw [b2 h]
    exact ⟨rfl, rfl, rfl, rfl, rfl⟩
  · rw [b3 h]
    exact ⟨rfl, rfl, rfl, rfl, rfl⟩
  · rw [b4 h]
    exact ⟨rfl, rfl, rfl, rfl, rfl⟩

/-- C8 witness: an instruction named `xor` that is structurally a store to
address space 2, on a fresh record. -/
theorem C8_witness :
    ((⟨"xor", .store, 2⟩ : Instruction).kind = InstKind.load ∨
        (⟨"xor", .store, 2⟩ : Instruction).kind = InstKind.store) ∧
      evalInstruction ⟨"xor", .store, 2⟩ BasicBlockStatsData.init =
        { BasicBlockStatsData.init with NumBitBinOps := 1 } :=
  ⟨Or.inr rfl,
   (C8_name_table_priority ⟨"xor", .store, 2⟩ BasicBlockStatsData.init
      (Or.inr rfl)).2.1 (by decide)⟩

/-! ## C9 -/

/-- C9: accumulating the block [add; load from address space 1; store to address
space 2; br] from a fresh record yields `NumBinOps = 1`, `NumLoadOps = 1`,
`NumStoreOps = 1`, `NumOtherOps = 1`, `NumLocalMemAcc = 1`, `NumGlobalMemAcc = 1`
and every other counter 0, whatever the block's address and owner loop (`x` and
`y` stand for the pointer address space the `add` and the `br` do not have). -/
theorem C9_scenario_block (LI : Nat → Option Nat) (a x y : Nat) :
    blockStats LI ⟨a, [⟨"add", .other, x⟩, ⟨"load", .load, 1⟩, ⟨"store", .store, 2⟩,
        ⟨"br", .other, y⟩]⟩ =
      { OwnerLoop := LI a,
        NumBinOps := 1, NumBitBinOps := 0, NumVecOps := 0, NumAggOps := 0,
        NumLoadOps := 1, NumStoreOps := 1, NumCallOps := 0, NumOtherOps := 1,
        NumGlobalMemAcc := 1, NumLocalMemAcc := 1, NumPrivateMemAcc := 0 } := by
  rfl

/-! ## C10 -/

/-- C10: running `runOnFunction` on function A and then on function B, starting
from any results collection R, returns `false` both times and leaves the
collection equal to R, followed by one (block, record) pair per block of A in A's
stored order, followed by one pair per block of B in B's stored order.  Hence R is
unchanged as a prefix, the length grows by the number of blocks, and the pairs
carry the block addresses in order. -/
theorem C10_runOnFunction_appends (LIA LIB : Nat → Option Nat) (A B : List BasicBlock)
    (R : BasicBlocks) :
    (runOnFunction LIA A R).1 = false ∧
      (runOnFunction LIB B (runOnFunction LIA A R).2).1 = false ∧
      (runOnFunction LIA A R).2 =
        R ++ A.map (fun bb => (bb.addr, blockStats LIA bb)) ∧
      (runOnFunction LIB B (runOnFunction LIA A R).2).2 =
        R ++ A.map (fun bb => (bb.addr, blockStats LIA bb)) ++
          B.map (fun bb => (bb.addr, blockStats LIB bb)) ∧
      ((runOnFunction LIB B (runOnFunction LIA A R).2).2).take R.length = R ∧
      ((runOnFunction LIA A R).2).length = R.length + A.length ∧
      ((runOnFunction LIB B (runOnFunction LIA A R).2).2).length =
        R.length + A.length + B.length ∧
      ((runOnFunction LIB B (runOnFunction LIA A R).2).2).map Prod.fst =
        R.map Prod.fst ++ A.map BasicBlock.addr ++ B.map BasicBlock.addr := by
  rw [runOnFunction_eq LIA A R, runOnFunction_eq LIB B]
  refine ⟨rfl, rfl, rfl, rfl, ?_, ?_, ?_, ?_⟩
  · show (R ++ A.map _ ++ B.map _).take R.length = R
    rw [List.append_assoc, List.take_left]
  · show (R ++ A.map _).length = _
    rw [List.length_append, List.length_map]
  · show (R ++ A.map _ ++ B.map _).length = _
    rw [List.length_append, List.length_append, List.length_map, List.length_map]
  · show (R ++ A.map _ ++ B.map _).map Prod.fst = _
    rw [List.map_append, List.map_append, List.map_map, List.map_map]
    rfl

/-! ## C11 -/

/-- C11: for every block, the record appended by `runOnFunction` has `OwnerLoop`
equal to the loop analysis' answer for that block (`none` when the answer is
`none`), whatever the block's instructions: neither `evalInstruction` nor
`checkAddrSpace` (nor the whole instruction walk) changes `OwnerLoop`. -/
theorem C11_OwnerLoop (LI : Nat → Option Nat) (CurrFunc : List BasicBlock)
    (functionStats : BasicBlocks) :
    (((runOnFunction LI CurrFunc functionStats).2.drop functionStats.length).map
        (fun p => (p.1, p.2.OwnerLoop)) =
      CurrFunc.map (fun bb => (bb.addr, LI bb.addr))) ∧
      (∀ bb : BasicBlock, (blockStats LI bb).OwnerLoop = LI bb.addr) ∧
      (∀ (insts : List Instruction) (s : BasicBlockStatsData),
        (evalBlock insts s).OwnerLoop = s.OwnerLoop) ∧
      (∀ (i : Instruction) (s : BasicBlockStatsData),
        (evalInstruction i s).OwnerLoop = s.OwnerLoop) ∧
      (∀ (a : Nat) (s : BasicBlockStatsData),
        (checkAddrSpace a s).OwnerLoop = s.OwnerLoop) := by
  have hb : ∀ bb : BasicBlock, (blockStats LI bb).OwnerLoop = LI bb.addr := by
    intro bb
    unfold blockStats
    rw [evalBlock_OwnerLoop]
  refine ⟨?_, hb, evalBlock_OwnerLoop, evalInstruction_OwnerLoop,
    checkAddrSpace_OwnerLoop⟩
  rw [runOnFunction_eq]
  show ((functionStats ++ CurrFunc.map _).drop functionStats.length).map _ = _
  rw [List.drop_left, List.map_map]
  apply List.map_congr_left
  intro bb _
  show (bb.addr, (blockStats LI bb).OwnerLoop) = (bb.addr, LI bb.addr)
  rw [hb]

/-! ## C12 -/

/-- C12: the four opcode tables `BIN_OPS`, `BIT_BIN_OPS`, `VEC_OPS` and `AGG_OPS`
are pairwise disjoint and none of them contains `call`; hence every opcode name
passes at most one of the five name tests of `evalInstruction`. -/
theorem C12_tables_disjoint :
    (∀ x ∈ BIN_OPS, x ∉ BIT_BIN_OPS ∧ x ∉ VEC_OPS ∧ x ∉ AGG_OPS) ∧
      (∀ x ∈ BIT_BIN_OPS, x ∉ BIN_OPS ∧ x ∉ VEC_OPS ∧ x ∉ AGG_OPS) ∧
      (∀ x ∈ VEC_OPS, x ∉ BIN_OPS ∧ x ∉ BIT_BIN_OPS ∧ x ∉ AGG_OPS) ∧
      (∀ x ∈ AGG_OPS, x ∉ BIN_OPS ∧ x ∉ BIT_BIN_OPS ∧ x ∉ VEC_OPS) ∧
      ("call" ∉ BIN_OPS ∧ "call" ∉ BIT_BIN_OPS ∧ "call" ∉ VEC_OPS ∧ "call" ∉ AGG_OPS) ∧
      (∀ x : String,
        List.count true
          [decide (x ∈ BIN_OPS), decide (x ∈ BIT_BIN_OPS), decide (x ∈ VEC_OPS),
            decide (x ∈ AGG_OPS), decide (x = "call")] ≤ 1) := by
  have d1 : ∀ x ∈ BIN_OPS, x ∉ BIT_BIN_OPS ∧ x ∉ VEC_OPS ∧ x ∉ AGG_OPS := by decide
  have d2 : ∀ x ∈ BIT_BIN_OPS, x ∉ BIN_OPS ∧ x ∉ VEC_OPS ∧ x ∉ AGG_OPS := by decide
  have d3 : ∀ x ∈ VEC_OPS, x ∉ BIN_OPS ∧ x ∉ BIT_BIN_OPS ∧ x ∉ AGG_OPS := by decide
  have d4 : ∀ x ∈ AGG_OPS, x ∉ BIN_OPS ∧ x ∉ BIT_BIN_OPS ∧ x ∉ VEC_OPS := by decide
  have d5 : "call" ∉ BIN_OPS ∧ "call" ∉ BIT_BIN_OPS ∧ "call" ∉ VEC_OPS ∧
      "call" ∉ AGG_OPS := by decide
  refine ⟨d1, d2, d3, d4, d5, fun x => ?_⟩
  by_cases h1 : x ∈ BIN_OPS
  · obtain ⟨n2, n3, n4⟩ := d1 x h1
    have n5 : x ≠ "call" := fun e => d5.1 (e ▸ h1)
    simp only [h1, n2, n3, n4, n5, decide_True, decide_False]
    decide
  by_cases h2 : x ∈ BIT_BIN_OPS
  · obtain ⟨-, n3, n4⟩ := d2 x h2
    have n5 : x ≠ "call" := fun e => d5.2.1 (e ▸ h2)
    simp only [h1, h2, n3, n4, n5, decide_True, decide_False]
    decide
  by_cases h3 : x ∈ VEC_OPS
  · obtain ⟨-, -, n4⟩ := d3 x h3
    have n5 : x ≠ "call" := fun e => d5.2.2.1 (e ▸ h3)
    simp only [h1, h2, h3, n4, n5, decide_True, decide_False]
    decide
  by_cases h4 : x ∈ AGG_OPS
  · have n5 : x ≠ "call" := fun e => d5.2.2.2 (e ▸ h4)
    simp only [h1, h2, h3, h4, n5, decide_True, decide_False]
    decide
  by_cases h5 : x = "call"
  · simp only [h1, h2, h3, h4, h5, decide_True, decide_False]
    decide
  · simp only [h1, h2, h3, h4, h5, decide_True, decide_False]
    decide

/-! ## C13 -/

/-- C13: the classification does not depend on the order of the category sets.
For every permutation `order` of the four name-table membership tests, the
reordered classifier gives, for every instruction and every starting record,
the same resulting record as `evalInstruction`. -/
theorem C13_table_order_irrelevant (order : List NameTable)
    (h : order.Perm
      [NameTable.binOps, NameTable.bitBinOps, NameTable.vecOps, NameTable.aggOps])
    (i : Instruction) (s : BasicBlockStatsData) :
    evalInstructionReordered order i s = evalInstruction i s := by
  rw [evalInstruction_eq_reordered]
  by_cases hex : ∃ t : NameTable, i.opcodeName ∈ t.names
  · obtain ⟨t, ht⟩ := hex
    rw [evalInstructionReordered_of_mem order t i s (h.mem_iff.2 t.mem_all) ht,
      evalInstructionReordered_of_mem _ t i s t.mem_all ht]
  · have hn : ∀ (l : List NameTable), ∀ t ∈ l, i.opcodeName ∉ t.names :=
      fun _ t _ hx => hex ⟨t, hx⟩
    rw [evalInstructionReordered_of_not_mem order i s (hn order),
      evalInstructionReordered_of_not_mem _ i s (hn _)]

/-- C13 witness: the four tests in the reverse of the source order, on a `xor`
that is structurally a store. -/
theorem C13_witness :
    [NameTable.aggOps, NameTable.vecOps, NameTable.bitBinOps, NameTable.binOps].Perm
        [NameTable.binOps, NameTable.bitBinOps, NameTable.vecOps, NameTable.aggOps] ∧
      evalInstructionReordered
          [NameTable.aggOps, NameTable.vecOps, NameTable.bitBinOps, NameTable.binOps]
          ⟨"xor", .store, 2⟩ BasicBlockStatsData.init =
        evalInstruction ⟨"xor", .store, 2⟩ BasicBlockStatsData.init :=
  ⟨by decide,
   C13_table_order_irrelevant
     [NameTable.aggOps, NameTable.vecOps, NameTable.bitBinOps, NameTable.binOps]
     (by decide) ⟨"xor", .store, 2⟩ BasicBlockStatsData.init⟩

/-! ## C14 -/

/-- C14: the records produced for a function depend only on its blocks'
instructions and the loop analysis' answers.  Two runs whose functions agree,
block by block, on the instruction list and on the loop answer append the same
records, whatever the prior contents of the two collections and the block
addresses; the same function with the same loop analysis appends identical pairs
after any two prior collections; and two blocks with the same instructions and the
same loop answer get equal records. -/
theorem C14_records_depend_only_on_inputs (LI1 LI2 : Nat → Option Nat)
    (F1 F2 : List BasicBlock) (R1 R2 : BasicBlocks)
    (h : F1.map (fun bb => (bb.insts, LI1 bb.addr)) =
      F2.map (fun bb => (bb.insts, LI2 bb.addr))) :
    (((runOnFunction LI1 F1 R1).2.drop R1.length).map Prod.snd =
        ((runOnFunction LI2 F2 R2).2.drop R2.length).map Prod.snd) ∧
      ((runOnFunction LI1 F1 R1).2.drop R1.length =
        (runOnFunction LI1 F1 R2).2.drop R2.length) ∧
      (∀ bb1 bb2 : BasicBlock, bb1.insts = bb2.insts → LI1 bb1.addr = LI2 bb2.addr →
        blockStats LI1 bb1 = blockStats LI2 bb2) := by
  refine ⟨?_, ?_, ?_⟩
  · rw [runOnFunction_drop, runOnFunction_drop, List.map_map, List.map_map]
    show F1.map (blockStats LI1) = F2.map (blockStats LI2)
    rw [map_blockStats, map_blockStats, h]
  · rw [runOnFunction_drop, runOnFunction_drop]
  · intro bb1 bb2 hi hl
    unfold blockStats
    rw [hi, hl]

/-- C14 witness: the same one-instruction block at two different addresses,
appended after two different collections. -/
theorem C14_witness :
    ([BasicBlock.mk 1 [⟨"add", .other, 0⟩]].map
          (fun bb => (bb.insts, (fun _ => some 5 : Nat → Option Nat) bb.addr)) =
        [BasicBlock.mk 2 [⟨"add", .other, 0⟩]].map
          (fun bb => (bb.insts, (fun _ => some 5 : Nat → Option Nat) bb.addr))) ∧
      ((runOnFunction (fun _ => some 5) [BasicBlock.mk 1 [⟨"add", .other, 0⟩]]
            []).2.drop ([] : BasicBlocks).length).map Prod.snd =
        ((runOnFunction (fun _ => some 5) [BasicBlock.mk 2 [⟨"add", .other, 0⟩]]
            [(9, BasicBlockStatsData.init)]).2.drop
              ([(9, BasicBlockStatsData.init)] : BasicBlocks).length).map Prod.snd :=
  ⟨rfl,
   (C14_records_depend_only_on_inputs (fun _ => some 5) (fun _ => some 5)
      [BasicBlock.mk 1 [⟨"add", .other, 0⟩]] [BasicBlock.mk 2 [⟨"add", .other, 0⟩]]
      [] [(9, BasicBlockStatsData.init)] rfl).1⟩

/-! ## C15 -/

/-- C15 as stated fails: on a record whose `NumBinOps` is 4294967295 an `add`
leaves `NumBinOps = 0`, a smaller value than before. -/
theorem C15_counterexample :
    (evalInstruction ⟨"add", .other, 0⟩
        { BasicBlockStatsData.init with NumBinOps := 4294967295 }).NumBinOps <
      ({ BasicBlockStatsData.init with NumBinOps := 4294967295 } :
        BasicBlockStatsData).NumBinOps := by
  decide

/-- C15 (amended): a freshly constructed `BasicBlockStatsData` has all eleven
counters equal to 0, so an empty block yields an all-zero record; and for every
record and every instruction, each of the eleven counters that is below
4294967295 before `evalInstruction` is not smaller after it. -/
theorem C15_counters_start_zero_and_grow (i : Instruction) (s : BasicBlockStatsData) :
    BasicBlockStatsData.init =
        { OwnerLoop := none,
          NumBinOps := 0, NumBitBinOps := 0, NumVecOps := 0, NumAggOps := 0,
          NumLoadOps := 0, NumStoreOps := 0, NumCallOps := 0, NumOtherOps := 0,
          NumGlobalMemAcc := 0, NumLocalMemAcc := 0, NumPrivateMemAcc := 0 } ∧
      (∀ (LI : Nat → Option Nat) (a : Nat),
        blockStats LI ⟨a, []⟩ =
          { OwnerLoop := LI a,
            NumBinOps := 0, NumBitBinOps := 0, NumVecOps := 0, NumAggOps := 0,
            NumLoadOps := 0, NumStoreOps := 0, NumCallOps := 0, NumOtherOps := 0,
            NumGlobalMemAcc := 0, NumLocalMemAcc := 0, NumPrivateMemAcc := 0 }) ∧
      (s.NumBinOps < UINT_MAX → s.NumBinOps ≤ (evalInstruction i s).NumBinOps) ∧
      (s.NumBitBinOps < UINT_MAX →
        s.NumBitBinOps ≤ (evalInstruction i s).NumBitBinOps) ∧
      (s.NumVecOps < UINT_MAX → s.NumVecOps ≤ (evalInstruction i s).NumVecOps) ∧
      (s.NumAggOps < UINT_MAX → s.NumAggOps ≤ (evalInstruction i s).NumAggOps) ∧
      (s.NumLoadOps < UINT_MAX → s.NumLoadOps ≤ (evalInstruction i s).NumLoadOps) ∧
      (s.NumStoreOps < UINT_MAX → s.NumStoreOps ≤ (evalInstruction i s).NumStoreOps) ∧
      (s.NumCallOps < UINT_MAX → s.NumCallOps ≤ (evalInstruction i s).NumCallOps) ∧
      (s.NumOtherOps < UINT_MAX → s.NumOtherOps ≤ (evalInstruction i s).NumOtherOps) ∧
      (s.NumGlobalMemAcc < UINT_MAX →
        s.NumGlobalMemAcc ≤ (evalInstruction i s).NumGlobalMemAcc) ∧
      (s.NumLocalMemAcc < UINT_MAX →
        s.NumLocalMemAcc ≤ (evalInstruction i s).NumLocalMemAcc) ∧
      (s.NumPrivateMemAcc < UINT_MAX →
        s.NumPrivateMemAcc ≤ (evalInstruction i s).NumPrivateMemAcc) := by
  have step : ∀ {n m : Nat} {p : Prop} [Decidable p],
      m = (if p then inc n else n) → n < UINT_MAX → n ≤ m := by
    intro n m p _ e hlt
    rw [e]
    split_ifs
    · rw [inc_of_lt hlt]
      exact Nat.le_succ n
    · exact Nat.le_refl n
  exact ⟨rfl, fun _ _ => rfl,
    step (evalInstruction_counter i s .bin), step (evalInstruction_counter i s .bitBin),
    step (evalInstruction_counter i s .vec), step (evalInstruction_counter i s .agg),
    step (evalInstruction_counter i s .load), step (evalInstruction_counter i s .store),
    step (evalInstruction_counter i s .call), step (evalInstruction_counter i s .other),
    step (evalInstruction_NumGlobalMemAcc i s), step (evalInstruction_NumLocalMemAcc i s),
    step (evalInstruction_NumPrivateMemAcc i s)⟩

/-! ## C16 -/

/-- C16: Other is the catch-all and only the catch-all.  `evalInstruction` applies
the increment to `NumOtherOps` iff the opcode name is in none of the four tables,
is not `call`, and the instruction is structurally neither a load nor a store;
otherwise `NumOtherOps` is unchanged; and in the catch-all case no other field of
the record changes.  In particular terminators named `br`, `ret` or `invoke` are
counted as Other. -/
theorem C16_other_is_catch_all (i : Instruction) (s : BasicBlockStatsData) :
    ((evalInstruction i s).NumOtherOps = inc s.NumOtherOps ↔
        i.opcodeName ∉ BIN_OPS ∧ i.opcodeName ∉ BIT_BIN_OPS ∧ i.opcodeName ∉ VEC_OPS ∧
          i.opcodeName ∉ AGG_OPS ∧ i.opcodeName ≠ "call" ∧ i.kind ≠ InstKind.load ∧
          i.kind ≠ InstKind.store) ∧
      ((evalInstruction i s).NumOtherOps = s.NumOtherOps ↔
        ¬ (i.opcodeName ∉ BIN_OPS ∧ i.opcodeName ∉ BIT_BIN_OPS ∧
          i.opcodeName ∉ VEC_OPS ∧ i.opcodeName ∉ AGG_OPS ∧ i.opcodeName ≠ "call" ∧
          i.kind ≠ InstKind.load ∧ i.kind ≠ InstKind.store)) ∧
      (i.opcodeName ∉ BIN_OPS ∧ i.opcodeName ∉ BIT_BIN_OPS ∧ i.opcodeName ∉ VEC_OPS ∧
          i.opcodeName ∉ AGG_OPS ∧ i.opcodeName ≠ "call" ∧ i.kind ≠ InstKind.load ∧
          i.kind ≠ InstKind.store →
        evalInstruction i s = { s with NumOtherOps := inc s.NumOtherOps }) ∧
      (∀ (a : Nat) (r : BasicBlockStatsData),
        evalInstruction ⟨"br", .other, a⟩ r =
            { r with NumOtherOps := inc r.NumOtherOps } ∧
          evalInstruction ⟨"ret", .other, a⟩ r =
            { r with NumOtherOps := inc r.NumOtherOps } ∧
          evalInstruction ⟨"invoke", .other, a⟩ r =
            { r with NumOtherOps := inc r.NumOtherOps }) := by
  have hc := evalInstruction_counter i s .other
  change (evalInstruction i s).NumOtherOps =
    if OpCategory.other = classify i then inc s.NumOtherOps else s.NumOtherOps at hc
  refine ⟨?_, ?_, ?_, fun _ _ => ⟨rfl, rfl, rfl⟩⟩
  · rw [← classify_other_iff, hc]
    by_cases h : OpCategory.other = classify i
    · rw [if_pos h]
      exact ⟨fun _ => h.symm, fun _ => rfl⟩
    · rw [if_neg h]
      exact ⟨fun e => absurd e.symm (inc_ne_self _), fun e => absurd e.symm h⟩
  · rw [← classify_other_iff, hc]
    by_cases h : OpCategory.other = classify i
    · rw [if_pos h]
      exact ⟨fun e => absurd e (inc_ne_self _), fun n => absurd h.symm n⟩
    · rw [if_neg h]
      exact ⟨fun _ e => h e.symm, fun _ => rfl⟩
  · intro hcond
    rw [evalInstruction_eq, (classify_other_iff i).2 hcond]

/-! ## C17 -/

/-- C17 as stated fails: a block of 4294967296 loads from address space 0 has
that many instructions classified as Load with pointer address space 0, but its
`NumPrivateMemAcc` has wrapped back to 0. -/
theorem C17_counterexample :
    (blockStats (fun _ => none)
        ⟨0, List.replicate 4294967296 ⟨"load", .load, 0⟩⟩).NumPrivateMemAcc ≠
      (List.replicate 4294967296 (⟨"load", .load, 0⟩ : Instruction)).countP
        (fun i => decide ((classify i = .load ∨ classify i = .store) ∧
          i.pointerAddressSpace = 0)) := by
  obtain ⟨h1, h2⟩ := blockStats_private_replicate (fun _ => none) 0 4294967296
  rw [h1, h2]
  decide

/-- C17 (amended): for every block with fewer than 4294967296 instructions, after
accumulation from a fresh record `NumPrivateMemAcc` (resp. `NumLocalMemAcc`,
`NumGlobalMemAcc`) equals the number of instructions of the block that are
classified as Load or Store and whose pointer address space is 0 (resp. 1, 2);
and an instruction classified in any other category changes none of the three
address-space counters, on any record. -/
theorem C17_address_space_counts (LI : Nat → Option Nat) (bb : BasicBlock)
    (h : bb.insts.length < 4294967296) :
    (blockStats LI bb).NumPrivateMemAcc =
        bb.insts.countP (fun i => decide ((classify i = .load ∨ classify i = .store) ∧
          i.pointerAddressSpace = 0)) ∧
      (blockStats LI bb).NumLocalMemAcc =
        bb.insts.countP (fun i => decide ((classify i = .load ∨ classify i = .store) ∧
          i.pointerAddressSpace = 1)) ∧
      (blockStats LI bb).NumGlobalMemAcc =
        bb.insts.countP (fun i => decide ((classify i = .load ∨ classify i = .store) ∧
          i.pointerAddressSpace = 2)) ∧
      (∀ (i : Instruction) (s : BasicBlockStatsData),
        ¬ (classify i = .load ∨ classify i = .store) →
          (evalInstruction i s).NumPrivateMemAcc = s.NumPrivateMemAcc ∧
            (evalInstruction i s).NumLocalMemAcc = s.NumLocalMemAcc ∧
            (evalInstruction i s).NumGlobalMemAcc = s.NumGlobalMemAcc) := by
  have lt : ∀ p : Instruction → Bool, bb.insts.countP p < 4294967296 :=
    fun p => lt_of_le_of_lt (List.countP_le_length p) h
  refine ⟨?_, ?_, ?_, fun i s hn => ?_⟩
  · rw [← accesses_fun_eq, blockStats_NumPrivateMemAcc]
    exact inc_iterate_zero_of_lt (lt _)
  · rw [← accesses_fun_eq, blockStats_NumLocalMemAcc]
    exact inc_iterate_zero_of_lt (lt _)
  · rw [← accesses_fun_eq, blockStats_NumGlobalMemAcc]
    exact inc_iterate_zero_of_lt (lt _)
  · have hf : ∀ a : Nat, accesses a i = false := by
      intro a
      rw [accesses_eq]
      exact decide_eq_false (fun hh => hn hh.1)
    rw [evalInstruction_NumPrivateMemAcc, evalInstruction_NumLocalMemAcc,
      evalInstruction_NumGlobalMemAcc, hf 0, hf 1, hf 2]
    exact ⟨rfl, rfl, rfl⟩

/-- C17 witness: a block with two loads from address space 0, a store to address
space 2 and an `add` that is structurally a load from address space 0. -/
theorem C17_witness :
    (BasicBlock.mk 3 [⟨"load", .load, 0⟩, ⟨"add", .load, 0⟩, ⟨"store", .store, 2⟩,
        ⟨"load", .load, 0⟩]).insts.length < 4294967296 ∧
      (blockStats (fun _ => none)
          ⟨3, [⟨"load", .load, 0⟩, ⟨"add", .load, 0⟩, ⟨"store", .store, 2⟩,
            ⟨"load", .load, 0⟩]⟩).NumPrivateMemAcc =
        (BasicBlock.mk 3 [⟨"load", .load, 0⟩, ⟨"add", .load, 0⟩, ⟨"store", .store, 2⟩,
          ⟨"load", .load, 0⟩]).insts.countP
          (fun i => decide ((classify i = .load ∨ classify i = .store) ∧
            i.pointerAddressSpace = 0)) :=
  ⟨by decide,
   (C17_address_space_counts (fun _ => none)
      ⟨3, [⟨"load", .load, 0⟩, ⟨"add", .load, 0⟩, ⟨"store", .store, 2⟩,
        ⟨"load", .load, 0⟩]⟩ (by decide)).1⟩

/-! ## C18 -/

/-- C18 as stated fails: with xs = 4294967295 `add` instructions and ys = one
`add`, `NumBinOps` over xs ++ ys has wrapped to 0, while the counters over xs and
over ys are 4294967295 and 1. -/
theorem C18_counterexample :
    (evalBlock (List.replicate 4294967295 ⟨"add", .other, 0⟩ ++ [⟨"add", .other, 0⟩])
        BasicBlockStatsData.init).NumBinOps ≠
      (evalBlock (List.replicate 4294967295 ⟨"add", .other, 0⟩)
          BasicBlockStatsData.init).NumBinOps +
        (evalBlock [⟨"add", .other, 0⟩] BasicBlockStatsData.init).NumBinOps := by
  obtain ⟨h1, h2, h3⟩ := evalBlock_add_replicate 4294967295
  rw [h1, h2, h3]
  decide

/-- C18 (amended): accumulation is additive over concatenation as long as no
counter can wrap: for all instruction sequences xs and ys with fewer than
4294967296 instructions in total, each of the eleven counters of the record
accumulated over xs ++ ys equals the sum of that counter in the record accumulated
over xs and in the record accumulated over ys (each from a fresh record). -/
theorem C18_additive_over_append (xs ys : List Instruction)
    (h : xs.length + ys.length < 4294967296) :
    (evalBlock (xs ++ ys) BasicBlockStatsData.init).NumBinOps =
        (evalBlock xs BasicBlockStatsData.init).NumBinOps +
          (evalBlock ys BasicBlockStatsData.init).NumBinOps ∧
      (evalBlock (xs ++ ys) BasicBlockStatsData.init).NumBitBinOps =
        (evalBlock xs BasicBlockStatsData.init).NumBitBinOps +
          (evalBlock ys BasicBlockStatsData.init).NumBitBinOps ∧
      (evalBlock (xs ++ ys) BasicBlockStatsData.init).NumVecOps =
        (evalBlock xs BasicBlockStatsData.init).NumVecOps +
          (evalBlock ys BasicBlockStatsData.init).NumVecOps ∧
      (evalBlock (xs ++ ys) BasicBlockStatsData.init).NumAggOps =
        (evalBlock xs BasicBlockStatsData.init).NumAggOps +
          (evalBlock ys BasicBlockStatsData.init).NumAggOps ∧
      (evalBlock (xs ++ ys) BasicBlockStatsData.init).NumLoadOps =
        (evalBlock xs BasicBlockStatsData.init).NumLoadOps +
          (evalBlock ys BasicBlockStatsData.init).NumLoadOps ∧
      (evalBlock (xs ++ ys) BasicBlockStatsData.init).NumStoreOps =
        (evalBlock xs BasicBlockStatsData.init).NumStoreOps +
          (evalBlock ys BasicBlockStatsData.init).NumStoreOps ∧
      (evalBlock (xs ++ ys) BasicBlockStatsData.init).NumCallOps =
        (evalBlock xs BasicBlockStatsData.init).NumCallOps +
          (evalBlock ys BasicBlockStatsData.init).NumCallOps ∧
      (evalBlock (xs ++ ys) BasicBlockStatsData.init).NumOtherOps =
        (evalBlock xs BasicBlockStatsData.init).NumOtherOps +
          (evalBlock ys BasicBlockStatsData.init).NumOtherOps ∧
      (evalBlock (xs ++ ys) BasicBlockStatsData.init).NumGlobalMemAcc =
        (evalBlock xs BasicBlockStatsData.init).NumGlobalMemAcc +
          (evalBlock ys BasicBlockStatsData.init).NumGlobalMemAcc ∧
      (evalBlock (xs ++ ys) BasicBlockStatsData.init).NumLocalMemAcc =
        (evalBlock xs BasicBlockStatsData.init).NumLocalMemAcc +
          (evalBlock ys BasicBlockStatsData.init).NumLocalMemAcc ∧
      (evalBlock (xs ++ ys) BasicBlockStatsData.init).NumPrivateMemAcc =
        (evalBlock xs BasicBlockStatsData.init).NumPrivateMemAcc +
          (evalBlock ys BasicBlockStatsData.init).NumPrivateMemAcc := by
  have hxy : (xs ++ ys).length < 4294967296 := by
    rw [List.length_append]
    exact h
  have hx : xs.length < 4294967296 := lt_of_le_of_lt (Nat.le_add_right _ _) h
  have hy : ys.length < 4294967296 := lt_of_le_of_lt (Nat.le_add_left _ _) h
  have key : ∀ c : OpCategory,
      (evalBlock (xs ++ ys) BasicBlockStatsData.init).counter c =
        (evalBlock xs BasicBlockStatsData.init).counter c +
          (evalBlock ys BasicBlockStatsData.init).counter c := by
    intro c
    rw [evalBlock_init_counter_of_lt _ c hxy, evalBlock_init_counter_of_lt _ c hx,
      evalBlock_init_counter_of_lt _ c hy, List.countP_append]
  obtain ⟨g1, l1, p1⟩ := evalBlock_init_memAcc_of_lt _ hxy
  obtain ⟨g2, l2, p2⟩ := evalBlock_init_memAcc_of_lt _ hx
  obtain ⟨g3, l3, p3⟩ := evalBlock_init_memAcc_of_lt _ hy
  refine ⟨key .bin, key .bitBin, key .vec, key .agg, key .load, key .store, key .call,
    key .other, ?_, ?_, ?_⟩
  · rw [g1, g2, g3, List.countP_append]
  · rw [l1, l2, l3, List.countP_append]
  · rw [p1, p2, p3, List.countP_append]

/-- C18 witness: xs = [add; load from 1], ys = [add; store to 1]. -/
theorem C18_witness :
    ([⟨"add", .other, 0⟩, ⟨"load", .load, 1⟩] : List Instruction).length +
        ([⟨"add", .other, 0⟩, ⟨"store", .store, 1⟩] : List Instruction).length <
          4294967296 ∧
      (evalBlock ([⟨"add", .other, 0⟩, ⟨"load", .load, 1⟩] ++
          [⟨"add", .other, 0⟩, ⟨"store", .store, 1⟩]) BasicBlockStatsData.init).NumBinOps =
        (evalBlock [⟨"add", .other, 0⟩, ⟨"load", .load, 1⟩]
            BasicBlockStatsData.init).NumBinOps +
          (evalBlock [⟨"add", .other, 0⟩, ⟨"store", .store, 1⟩]
            BasicBlockStatsData.init).NumBinOps :=
  ⟨by decide,
   (C18_additive_over_append [⟨"add", .other, 0⟩, ⟨"load", .load, 1⟩]
      [⟨"add", .other, 0⟩, ⟨"store", .store, 1⟩] (by decide)).1⟩

/-! ## C19 -/

/-- C19: the counters do not depend on instruction order.  For every block and
every permutation of its instructions, accumulation yields the same record, hence
the same eleven counter values: from a fresh record, from any starting record,
and through the per-block walk of `runOnFunction`. -/
theorem C19_order_independent (xs ys : List Instruction) (h : xs.Perm ys) :
    evalBlock xs BasicBlockStatsData.init = evalBlock ys BasicBlockStatsData.init ∧
      (∀ s : BasicBlockStatsData, evalBlock xs s = evalBlock ys s) ∧
      (∀ (LI : Nat → Option Nat) (a : Nat),
        blockStats LI ⟨a, xs⟩ = blockStats LI ⟨a, ys⟩) :=
  ⟨evalBlock_perm xs ys h _, evalBlock_perm xs ys h,
    fun _ _ => evalBlock_perm xs ys h _⟩

/-- C19 witness: [add; load from 1; br] and its rearrangement
[br; add; load from 1]. -/
theorem C19_witness :
    ([⟨"add", .other, 0⟩, ⟨"load", .load, 1⟩, ⟨"br", .other, 0⟩] :
        List Instruction).Perm
        [⟨"br", .other, 0⟩, ⟨"add", .other, 0⟩, ⟨"load", .load, 1⟩] ∧
      evalBlock [⟨"add", .other, 0⟩, ⟨"load", .load, 1⟩, ⟨"br", .other, 0⟩]
          BasicBlockStatsData.init =
        evalBlock [⟨"br", .other, 0⟩, ⟨"add", .other, 0⟩, ⟨"load", .load, 1⟩]
          BasicBlockStatsData.init :=
  ⟨by decide,
   (C19_order_independent [⟨"add", .other, 0⟩, ⟨"load", .load, 1⟩, ⟨"br", .other, 0⟩]
      [⟨"br", .other, 0⟩, ⟨"add", .other, 0⟩, ⟨"load", .load, 1⟩] (by decide)).1⟩

end Oclsa
